import Mathlib

/-!
# cs492-back: audio-feature aggregation, seed selection and request handlers

A shallow embedding of `main.go`.

* Floating-point numbers are read as exact rationals (`ℚ`).  The one division
  whose divisor can be zero, `diff / n` in `getMSE`, is embedded through
  `fdiv`, which has no result for a zero divisor.
* A Go pointer that may be `nil` (`*spotify.AudioFeatures`, `*spotify.FullTrack`)
  is an `Option`; dereferencing `none` is the fault `Fault.nilDereference`.
* The Spotify client, the random source and the numeric part of
  `strconv.ParseFloat` are outside the repository and are parameters.
-/

namespace Cs492Back

/-! ## Data model -/

/-- A run-time panic of the Go program. -/
inductive Fault where
  | nilDereference
  | indexOutOfRange
  deriving DecidableEq, Repr

/-- The numeric fields of `spotify.AudioFeatures` that `main.go` mentions
(loudness only inside comments).  The remaining fields of the library
struct (tempo, key, URIs, ...) are never touched by `main.go` and are left out. -/
structure AudioFeatures where
  Acousticness : ℚ := 0
  Danceability : ℚ := 0
  Energy : ℚ := 0
  Instrumentalness : ℚ := 0
  Liveness : ℚ := 0
  Loudness : ℚ := 0
  Speechiness : ℚ := 0
  Valence : ℚ := 0
  deriving DecidableEq

/-! ## Audio-feature aggregator (`main.go` 20-56) -/

/-- One iteration of the loop of `getCentroid` (lines 25-32): seven fields are
updated, the loudness line is commented out. -/
def centroidStep (n : ℚ) (avgFeat feat : AudioFeatures) : AudioFeatures :=
  { avgFeat with
    Acousticness := avgFeat.Acousticness + feat.Acousticness / n
    Danceability := avgFeat.Danceability + feat.Danceability / n
    Energy := avgFeat.Energy + feat.Energy / n
    Instrumentalness := avgFeat.Instrumentalness + feat.Instrumentalness / n
    Liveness := avgFeat.Liveness + feat.Liveness / n
    Speechiness := avgFeat.Speechiness + feat.Speechiness / n
    Valence := avgFeat.Valence + feat.Valence / n }

/-- The `for _, feat := range feats` loop of `getCentroid`; `feat` is a pointer
and reading a field of a nil pointer panics.  The body only runs for a
non-empty slice, so `n` is at least 1 whenever it divides. -/
def getCentroidLoop (n : ℚ) :
    List (Option AudioFeatures) → AudioFeatures → Except Fault AudioFeatures
  | [], avgFeat => .ok avgFeat
  | none :: _, _ => .error .nilDereference
  | some feat :: rest, avgFeat => getCentroidLoop n rest (centroidStep n avgFeat feat)

/-- `getCentroid` (lines 20-36). -/
def getCentroid (feats : List (Option AudioFeatures)) : Except Fault AudioFeatures :=
  getCentroidLoop (feats.length : ℚ) feats {}

/-- The value of `cur` after lines 43-51 of `getMSE`: seven squared
differences added to zero, the loudness line commented out. -/
def sqDeviation (centroid feat : AudioFeatures) : ℚ :=
  0 + (centroid.Acousticness - feat.Acousticness) ^ 2
    + (centroid.Danceability - feat.Danceability) ^ 2
    + (centroid.Energy - feat.Energy) ^ 2
    + (centroid.Instrumentalness - feat.Instrumentalness) ^ 2
    + (centroid.Liveness - feat.Liveness) ^ 2
    + (centroid.Speechiness - feat.Speechiness) ^ 2
    + (centroid.Valence - feat.Valence) ^ 2

/-- The loop of `getMSE` (lines 42-53), accumulating `diff`. -/
def getMSELoop (centroid : AudioFeatures) :
    List (Option AudioFeatures) → ℚ → Except Fault ℚ
  | [], diff => .ok diff
  | none :: _, _ => .error .nilDereference
  | some feat :: rest, diff => getMSELoop centroid rest (diff + sqDeviation centroid feat)

/-- Floating-point division read exactly: a zero divisor gives NaN or an
infinity, which has no rational value (`none`). -/
def fdiv (a b : ℚ) : Option ℚ :=
  if b = 0 then none else some (a / b)

/-- `getMSE` (lines 38-56). -/
def getMSE (feats : List (Option AudioFeatures)) (centroid : AudioFeatures) :
    Except Fault (Option ℚ) :=
  match getMSELoop centroid feats 0 with
  | .error e => .error e
  | .ok diff => .ok (fdiv diff (feats.length : ℚ))

/-- Two vectors coincide on the seven aggregated dimensions. -/
def agree7 (a b : AudioFeatures) : Prop :=
  a.Acousticness = b.Acousticness ∧ a.Danceability = b.Danceability ∧
  a.Energy = b.Energy ∧ a.Instrumentalness = b.Instrumentalness ∧
  a.Liveness = b.Liveness ∧ a.Speechiness = b.Speechiness ∧ a.Valence = b.Valence

/-- The vector with the given acousticness and every other field zero. -/
def onlyAcousticness (x : ℚ) : AudioFeatures := { Acousticness := x }

/-! ## Strings, identifiers and library records -/

/-- `spotify.ID` is a string. -/
abbrev ID := String

/-- `spotify.SimpleArtist`; only `Name` is read. -/
structure SimpleArtist where
  Name : String
  deriving DecidableEq

/-- `spotify.Image`; only `URL` is read. -/
structure Image where
  URL : String
  deriving DecidableEq

/-- `spotify.FullTrack`, restricted to the fields `main.go` reads:
`ID`, `Name`, `Artists`, `Popularity` and `Album.Images`. -/
structure FullTrack where
  ID : ID
  Name : String
  Artists : List SimpleArtist
  Popularity : Int
  AlbumImages : List Image
  deriving DecidableEq

/-- `spotify.PlaylistItem`: `item.Track.Track` is a `*FullTrack` and may be nil. -/
structure PlaylistItem where
  Track : Option FullTrack
  deriving DecidableEq

/-- `Track` (lines 58-64). -/
structure Track where
  ID : String
  Name : String
  Artists : List String
  Popularity : Int
  ImageURL : String
  deriving DecidableEq

/-- `PlaylistInfo` (lines 66-71); `MSE` has no value when it is the result of a
division by zero. -/
structure PlaylistInfo where
  Tracks : List Track
  Centroid : AudioFeatures
  MSE : Option ℚ
  deriving DecidableEq

/-! ## `strings.Split` and the seed selection (`main.go` 203-226) -/

/-- `strings.Split(s, ",")` of Go's standard library on the characters of `s`:
the pieces between consecutive commas, an empty piece included. -/
def splitComma : List Char → List (List Char)
  | [] => [[]]
  | c :: cs =>
    if c = ',' then [] :: splitComma cs
    else
      match splitComma cs with
      | [] => [[c]]
      | piece :: pieces => (c :: piece) :: pieces

/-- `strings.Split(seedIDStr, ",")`. -/
def Split (s : String) : List String :=
  (splitComma s.data).map String.mk

/-- The loop of lines 213-215: `ids = append(ids, items.Items[idx].Track.Track.ID)`.
The index expression panics out of range, the field access panics on a nil
`Track.Track`. -/
def seedLoop (items : List PlaylistItem) : List Nat → List ID → Except Fault (List ID)
  | [], ids => .ok ids
  | idx :: idxs, ids =>
    match items[idx]? with
    | none => .error .indexOutOfRange
    | some item =>
      match item.Track with
      | none => .error .nilDereference
      | some track => seedLoop items idxs (ids ++ [track.ID])

/-- The seed selection of `getRecsFunc` (lines 203-226).  `randPerm` is
`rand.Perm` of the process-wide random source. -/
def selectSeeds (items : List PlaylistItem) (randPerm : Nat → List Nat)
    (seedIDStr : String) : Except Fault (List ID) :=
  if seedIDStr = "" then
    let idxs := randPerm items.length
    let idxs := if idxs.length > 5 then idxs.take 5 else idxs
    seedLoop items idxs []
  else
    let seedIDs := Split seedIDStr
    let seedIDs := if seedIDs.length > 5 then seedIDs.take 5 else seedIDs
    .ok (seedIDs.foldl (fun ids seedID => ids ++ [seedID]) [])

/-! ## Query parameters and target attributes (`main.go` 139-187) -/

/-- `url.Values` as the key/value pairs of the query string in order. -/
abbrev Values := List (String × String)

/-- `url.Values.Get`: the first value of the key, `""` when there is none. -/
def Values.Get (query : Values) (key : String) : String :=
  match query.find? (fun kv => kv.1 == key) with
  | some kv => kv.2
  | none => ""

/-- A `float64` read exactly: a finite value, an infinity, or NaN. -/
inductive F64 where
  | finite (q : ℚ)
  | inf (negative : Bool)
  | nan
  deriving DecidableEq

/-- `commonPrefixLenIgnoreCase` of Go's `strconv`: the length of the longest
common prefix of `s` and the lower-case `pre`, ASCII upper-case letters of `s`
folded to lower case. -/
def commonPrefixLenIgnoreCase : List Char → List Char → Nat
  | c :: s, p :: pre => if c.toLower = p then commonPrefixLenIgnoreCase s pre + 1 else 0
  | _, _ => 0

/-- The `inf`/`infinity` arm of `special`, reached with the sign already
consumed (`nsign` characters). -/
def specialInf (s : List Char) (negative : Bool) (nsign : Nat) : Option (F64 × Nat) :=
  let n := commonPrefixLenIgnoreCase s "infinity".data
  let n := if 3 < n ∧ n < 8 then 3 else n
  if n = 3 ∨ n = 8 then some (F64.inf negative, nsign + n) else none

/-- `special` of Go's `strconv` (atof.go): the value and consumed length when a
prefix of `s` is a possibly signed `inf`, `infinity`, or an unsigned `nan`,
character case ignored. -/
def special (s : List Char) : Option (F64 × Nat) :=
  match s with
  | [] => none
  | c :: rest =>
    if c = '+' then specialInf rest false 1
    else if c = '-' then specialInf rest true 1
    else if c = 'i' ∨ c = 'I' then specialInf s false 0
    else if c = 'n' ∨ c = 'N' then
      if commonPrefixLenIgnoreCase s "nan".data = 3 then some (F64.nan, 3) else none
    else none

/-- `strconv.ParseFloat(s, 64)` of Go's standard library, `none` standing for
a non-nil error.  The special values are recognised first (`special`), and are
accepted when they span the whole string.  Otherwise `readFloat` rejects the
empty string before reading anything (a syntax error).  Everything else is
the numeric grammar with its rounding, the parameter `atof`: it yields a
finite value, or an error (syntax, or range when the magnitude overflows). -/
def ParseFloat (atof : String → Option ℚ) (s : String) : Option F64 :=
  match special s.data with
  | some (v, n) => if n = s.data.length then some v else none
  | none => if s.data = [] then none else (atof s).map F64.finite

/-- Modelled from the spec: `spotify.TrackAttributes` of the client library,
which is not in the repository: a sparse set of optional numeric targets, one
per aggregated dimension; an unset target is not sent as a constraint. -/
structure TrackAttributes where
  TargetAcousticness : Option F64 := none
  TargetDanceability : Option F64 := none
  TargetEnergy : Option F64 := none
  TargetInstrumentalness : Option F64 := none
  TargetLiveness : Option F64 := none
  TargetSpeechiness : Option F64 := none
  TargetValence : Option F64 := none
  deriving DecidableEq

/-- `spotify.NewTrackAttributes()`: nothing set. -/
def NewTrackAttributes : TrackAttributes := {}

/-- The pattern of lines 144-148, repeated for each key: the target is set by
`setTarget` when `strconv.ParseFloat` of the query value returns a nil error. -/
def setIfParsed (atof : String → Option ℚ) (query : Values) (key : String)
    (setTarget : TrackAttributes → F64 → TrackAttributes)
    (trackAttributes : TrackAttributes) : TrackAttributes :=
  match ParseFloat atof (query.Get key) with
  | some v => setTarget trackAttributes v
  | none => trackAttributes

/-- `getTargetAttributes` (lines 139-187). -/
def getTargetAttributes (atof : String → Option ℚ) (query : Values) : TrackAttributes :=
  let trackAttributes := NewTrackAttributes
  let trackAttributes := setIfParsed atof query "acousticness"
    (fun ta v => { ta with TargetAcousticness := some v }) trackAttributes
  let trackAttributes := setIfParsed atof query "danceability"
    (fun ta v => { ta with TargetDanceability := some v }) trackAttributes
  let trackAttributes := setIfParsed atof query "energy"
    (fun ta v => { ta with TargetEnergy := some v }) trackAttributes
  let trackAttributes := setIfParsed atof query "instrumentalness"
    (fun ta v => { ta with TargetInstrumentalness := some v }) trackAttributes
  let trackAttributes := setIfParsed atof query "liveness"
    (fun ta v => { ta with TargetLiveness := some v }) trackAttributes
  let trackAttributes := setIfParsed atof query "speechiness"
    (fun ta v => { ta with TargetSpeechiness := some v }) trackAttributes
  let trackAttributes := setIfParsed atof query "valence"
    (fun ta v => { ta with TargetValence := some v }) trackAttributes
  trackAttributes

/-! ## The collaborator and the response writer -/

/-- The calls `main.go` makes on `*spotify.Client`; an `error` result carries
the error's text. -/
structure Client where
  GetPlaylistItems : ID → Except String (List PlaylistItem)
  GetAudioFeatures : List ID → Except String (List (Option AudioFeatures))
  GetRecommendations : List ID → TrackAttributes → Except String (List ID)
  GetTracks : List ID → Except String (List (Option FullTrack))

/-- The kind of a collaborator call. -/
inductive Call where
  | GetPlaylistItems
  | GetAudioFeatures
  | GetRecommendations
  | GetTracks
  deriving DecidableEq, Repr

/-- One collaborator call made by a handler, and whether it returned an error. -/
structure CallRecord where
  call : Call
  failed : Bool
  deriving DecidableEq, Repr

/-- What a handler did to its `http.ResponseWriter`: the header map it built,
the status codes passed to `WriteHeader`, the strings written to the body by
`io.WriteString`, the values passed to the JSON encoder (`encodeCalls`), and
those of them whose JSON document the encoder wrote to the body (`encoded`). -/
structure ResponseWriter where
  header : List (String × String) := []
  status : List Nat := []
  written : List String := []
  encodeCalls : List PlaylistInfo := []
  encoded : List PlaylistInfo := []
  deriving DecidableEq

/-- `io.WriteString(w, s)`. -/
def ResponseWriter.WriteString (w : ResponseWriter) (s : String) : ResponseWriter :=
  { w with written := w.written ++ [s] }

/-- `w.Header().Set(key, value)`: replaces the values of the key. -/
def ResponseWriter.HeaderSet (w : ResponseWriter) (key value : String) : ResponseWriter :=
  { w with header := (w.header.filter (fun kv => kv.1 != key)) ++ [(key, value)] }

/-- `w.Header().Add(key, value)`: appends a value for the key. -/
def ResponseWriter.HeaderAdd (w : ResponseWriter) (key value : String) : ResponseWriter :=
  { w with header := w.header ++ [(key, value)] }

/-- `w.WriteHeader(code)`. -/
def ResponseWriter.WriteHeader (w : ResponseWriter) (code : Nat) : ResponseWriter :=
  { w with status := w.status ++ [code] }

/-- `json.NewEncoder(w).Encode(v)`, its error result discarded as the handlers
do.  The value is marshalled before anything is written: an `MSE` that is NaN
is an unsupported value, the encoder returns an error and writes nothing;
otherwise the JSON document goes to the body. -/
def ResponseWriter.Encode (w : ResponseWriter) (v : PlaylistInfo) : ResponseWriter :=
  match v.MSE with
  | none => { w with encodeCalls := w.encodeCalls ++ [v] }
  | some _ => { w with encodeCalls := w.encodeCalls ++ [v], encoded := w.encoded ++ [v] }

/-- The state of one handler invocation when it ends: the response writer, the
collaborator calls in order, and the panic that ended it, if any. -/
structure Run where
  w : ResponseWriter := {}
  calls : List CallRecord := []
  fault : Option Fault := none
  deriving DecidableEq

/-! ## Handlers (`main.go` 75-137 and 189-288) -/

/-- Lines 100-115 and 251-266: the `Track` built from a `spotify.FullTrack`. -/
def newTrack (track : FullTrack) : Track :=
  let artists := track.Artists.foldl (fun artists artist => artists ++ [artist.Name]) []
  let t : Track :=
    { ID := track.ID, Name := track.Name, Artists := artists,
      Popularity := track.Popularity, ImageURL := "" }
  match track.AlbumImages with
  | [] => t
  | image :: _ => { t with ImageURL := image.URL }

/-- The loop of lines 92-116 of `getPlaylistFunc`: an item whose
`Track.Track` is nil is skipped. -/
def collectTracks : List PlaylistItem → List ID × List Track → List ID × List Track
  | [], acc => acc
  | item :: items, (ids, tracks) =>
    match item.Track with
    | none => collectTracks items (ids, tracks)
    | some track => collectTracks items (ids ++ [track.ID], tracks ++ [newTrack track])

/-- The loop of lines 250-267 of `getRecsFunc` over `[]*spotify.FullTrack`:
reading a field of a nil entry panics. -/
def recTracks : List (Option FullTrack) → List Track → Except Fault (List Track)
  | [], tracks => .ok tracks
  | none :: _, _ => .error .nilDereference
  | some item :: items, tracks => recTracks items (tracks ++ [newTrack item])

/-- Lines 125-135 and 276-286, the same in both handlers: aggregate and
write the JSON response. -/
def aggregateAndRespond (calls : List CallRecord) (tracks : List Track)
    (feats : List (Option AudioFeatures)) : Run :=
  match getCentroid feats with
  | .error f => { calls := calls, fault := some f }
  | .ok avgFeat =>
    match getMSE feats avgFeat with
    | .error f => { calls := calls, fault := some f }
    | .ok diff =>
      let w : ResponseWriter := {}
      let w := w.HeaderSet "Content-Type" "application/json"
      let w := w.HeaderAdd "Access-Control-Allow-Origin" "*"
      let w := w.WriteHeader 200
      let w := w.Encode { Tracks := tracks, Centroid := avgFeat, MSE := diff }
      { w := w, calls := calls }

/-- Lines 83-87 and the like: write the message and return. -/
def failWith (calls : List CallRecord) (message : String) : Run :=
  { w := ({} : ResponseWriter).WriteString message, calls := calls }

/-- Whether a collaborator call returned a non-nil error. -/
def isFailure {α : Type} : Except String α → Bool
  | .error _ => true
  | .ok _ => false

/-- The call list extended by one collaborator call and its outcome. -/
def record {α : Type} (calls : List CallRecord) (call : Call)
    (result : Except String α) : List CallRecord :=
  calls ++ [⟨call, isFailure result⟩]

/-- The handler returned by `getPlaylistFunc` (lines 76-136).  Every call on
`sc` is recorded with its outcome as it is made. -/
def getPlaylistFunc (sc : Client) (query : Values) : Run :=
  let id := query.Get "id"
  let result := sc.GetPlaylistItems id
  let calls := record [] .GetPlaylistItems result
  match result with
  | .error _ => failWith calls "failed to get playlist"
  | .ok items =>
    let (ids, tracks) := collectTracks items ([], [])
    let result := sc.GetAudioFeatures ids
    let calls := record calls .GetAudioFeatures result
    match result with
    | .error _ => failWith calls "failed to get audio features"
    | .ok feats => aggregateAndRespond calls tracks feats

/-- The handler returned by `getRecsFunc` (lines 190-287).  Every call on `sc`
is recorded with its outcome as it is made. -/
def getRecsFunc (sc : Client) (randPerm : Nat → List Nat) (atof : String → Option ℚ)
    (query : Values) : Run :=
  let playlistID := query.Get "id"
  let result := sc.GetPlaylistItems playlistID
  let calls := record [] .GetPlaylistItems result
  match result with
  | .error _ => failWith calls "failed to get playlist"
  | .ok items =>
    match selectSeeds items randPerm (query.Get "seeds") with
    | .error f => { calls := calls, fault := some f }
    | .ok ids =>
      let result := sc.GetRecommendations ids (getTargetAttributes atof query)
      let calls := record calls .GetRecommendations result
      match result with
      | .error _ => failWith calls "failed to get recommendations"
      | .ok recs =>
        let recIDs := recs.foldl (fun recIDs rec => recIDs ++ [rec]) []
        let result := sc.GetTracks recIDs
        let calls := record calls .GetTracks result
        match result with
        | .error _ => failWith calls "failed to get tracks"
        | .ok recItems =>
          match recTracks recItems [] with
          | .error f => { calls := calls, fault := some f }
          | .ok tracks =>
            let result := sc.GetAudioFeatures recIDs
            let calls := record calls .GetAudioFeatures result
            match result with
            | .error _ => failWith calls "failed to get audio features"
            | .ok feats => aggregateAndRespond calls tracks feats

/-- The fixed text a handler writes when the given collaborator call fails
(lines 85, 121, 199, 233, 245, 272). -/
def failureMessage : Call → String
  | .GetPlaylistItems => "failed to get playlist"
  | .GetAudioFeatures => "failed to get audio features"
  | .GetRecommendations => "failed to get recommendations"
  | .GetTracks => "failed to get tracks"

/-! ## Definitions used in the statements -/

/-- The track ID at playlist index `idx`: `items.Items[idx].Track.Track.ID`,
when the index is in range and the item has embedded track data. -/
def trackIDAt (items : List PlaylistItem) (idx : Nat) : Option ID :=
  match items[idx]? with
  | none => none
  | some item => item.Track.map (·.ID)

/-- A random source whose permutation is the identity. -/
def identityPerm (n : Nat) : List Nat := List.range n

/-- A track with the given ID and nothing else. -/
def bareTrack (id : ID) : FullTrack :=
  { ID := id, Name := "", Artists := [], Popularity := 0, AlbumImages := [] }

/-- A collaborator over an empty playlist: the playlist lookup succeeds with no
items and the feature lookup with no vectors; a recommendation request
without seeds is refused, as the client library does before any request. -/
def emptyClient : Client :=
  { GetPlaylistItems := fun _ => .ok []
    GetAudioFeatures := fun _ => .ok []
    GetRecommendations := fun seeds _ =>
      if seeds = [] then .error "spotify: at least one seed is required" else .ok []
    GetTracks := fun _ => .ok [] }

/-- A collaborator whose playlist lookup fails. -/
def failingClient : Client :=
  { emptyClient with GetPlaylistItems := fun _ => .error "404 Not Found" }

/-- A collaborator whose playlist has one item without embedded track data
(`Track.Track` nil), as the platform returns for an unavailable track. -/
def nilTrackClient : Client :=
  { emptyClient with GetPlaylistItems := fun _ => .ok [⟨none⟩] }

/-- A collaborator over a playlist of the one track `P`: it recommends the one
track `R` for any non-empty seed set, returns the full track for every
requested ID, and the same feature vector (acousticness 1/2) for every ID. -/
def oneTrackClient : Client :=
  { GetPlaylistItems := fun _ => .ok [⟨some (bareTrack "P")⟩]
    GetAudioFeatures := fun ids => .ok (ids.map fun _ => some (onlyAcousticness (1 / 2)))
    GetRecommendations := fun seeds _ =>
      if seeds = [] then .error "spotify: at least one seed is required" else .ok ["R"]
    GetTracks := fun ids => .ok (ids.map fun id => some (bareTrack id)) }

/-- The collaborator `oneTrackClient` with a failing feature lookup. -/
def featuresFailingClient : Client :=
  { oneTrackClient with GetAudioFeatures := fun _ => .error "429 Too Many Requests" }

/-- The collaborator `oneTrackClient` with a failing track lookup. -/
def tracksFailingClient : Client :=
  { oneTrackClient with GetTracks := fun _ => .error "502 Bad Gateway" }

/-- The collaborator `oneTrackClient` with a failing recommendation request. -/
def recommendationsFailingClient : Client :=
  { oneTrackClient with GetRecommendations := fun _ _ => .error "401 Unauthorized" }

/-- A numeric grammar that accepts nothing; the special values of
`strconv.ParseFloat` do not go through it. -/
def noNumber : String → Option ℚ := fun _ => none

/-- The numeric grammar restricted to the numeral `0.5`, whose `float64` value
is exactly 1/2. -/
def halfOnly : String → Option ℚ := fun s => if s = "0.5" then some (1 / 2) else none

/-- The seven keys `getTargetAttributes` reads. -/
def recognisedKeys : List String :=
  ["acousticness", "danceability", "energy", "instrumentalness", "liveness",
    "speechiness", "valence"]

/-- The target that belongs to a query key. -/
def targetOf (ta : TrackAttributes) (key : String) : Option F64 :=
  if key = "acousticness" then ta.TargetAcousticness
  else if key = "danceability" then ta.TargetDanceability
  else if key = "energy" then ta.TargetEnergy
  else if key = "instrumentalness" then ta.TargetInstrumentalness
  else if key = "liveness" then ta.TargetLiveness
  else if key = "speechiness" then ta.TargetSpeechiness
  else if key = "valence" then ta.TargetValence
  else none

/-- The characters of a string with ASCII upper-case letters folded to lower
case. -/
def lowerCase (s : String) : List Char := s.data.map Char.toLower

/-! ## Aggregator lemmas -/

theorem getCentroidLoop_map_some (n : ℚ) (V : List AudioFeatures) (acc : AudioFeatures) :
    getCentroidLoop n (V.map some) acc = .ok
      { Acousticness := acc.Acousticness + (V.map (·.Acousticness)).sum / n
        Danceability := acc.Danceability + (V.map (·.Danceability)).sum / n
        Energy := acc.Energy + (V.map (·.Energy)).sum / n
        Instrumentalness := acc.Instrumentalness + (V.map (·.Instrumentalness)).sum / n
        Liveness := acc.Liveness + (V.map (·.Liveness)).sum / n
        Loudness := acc.Loudness
        Speechiness := acc.Speechiness + (V.map (·.Speechiness)).sum / n
        Valence := acc.Valence + (V.map (·.Valence)).sum / n } := by
  induction V generalizing acc with
  | nil => simp [getCentroidLoop]
  | cons v V ih =>
    simp only [List.map_cons, getCentroidLoop, ih, centroidStep, List.sum_cons]
    congr 2 <;> ring

theorem getMSELoop_map_some (c : AudioFeatures) (V : List AudioFeatures) (diff : ℚ) :
    getMSELoop c (V.map some) diff = .ok (diff + (V.map (sqDeviation c)).sum) := by
  induction V generalizing diff with
  | nil => simp [getMSELoop]
  | cons v V ih =>
    simp only [List.map_cons, getMSELoop, ih, List.sum_cons]
    congr 1; ring

theorem getMSE_map_some (c : AudioFeatures) (V : List AudioFeatures) :
    getMSE (V.map some) c = .ok (fdiv (V.map (sqDeviation c)).sum (V.length : ℚ)) := by
  simp [getMSE, getMSELoop_map_some]

theorem sum_map_eq_zero_iff {α : Type} (f : α → ℚ) (hf : ∀ a, 0 ≤ f a) (V : List α) :
    (V.map f).sum = 0 ↔ ∀ v ∈ V, f v = 0 := by
  induction V with
  | nil => simp
  | cons v V ih =>
    have h1 : 0 ≤ (V.map f).sum := List.sum_nonneg (by simpa using fun a _ => hf a)
    have h2 := hf v
    simp only [List.map_cons, List.sum_cons, List.mem_cons, forall_eq_or_imp, ← ih]
    constructor
    · intro h; constructor <;> linarith
    · rintro ⟨ha, hb⟩; linarith

theorem sum_map_const {α : Type} (f : α → ℚ) (x : ℚ) (V : List α) (h : ∀ v ∈ V, f v = x) :
    (V.map f).sum = (V.length : ℚ) * x := by
  induction V with
  | nil => simp
  | cons v V ih =>
    simp only [List.mem_cons, forall_eq_or_imp] at h
    simp only [List.map_cons, List.sum_cons, List.length_cons, ih h.2, h.1]
    push_cast; ring

theorem sqDeviation_nonneg (c v : AudioFeatures) : 0 ≤ sqDeviation c v := by
  unfold sqDeviation; positivity

theorem sqDeviation_eq_zero_iff (c v : AudioFeatures) : sqDeviation c v = 0 ↔ agree7 c v := by
  unfold sqDeviation agree7
  constructor
  · intro h
    have h1 := sq_nonneg (c.Acousticness - v.Acousticness)
    have h2 := sq_nonneg (c.Danceability - v.Danceability)
    have h3 := sq_nonneg (c.Energy - v.Energy)
    have h4 := sq_nonneg (c.Instrumentalness - v.Instrumentalness)
    have h5 := sq_nonneg (c.Liveness - v.Liveness)
    have h6 := sq_nonneg (c.Speechiness - v.Speechiness)
    have h7 := sq_nonneg (c.Valence - v.Valence)
    refine ⟨?_, ?_, ?_, ?_, ?_, ?_, ?_⟩ <;>
      exact sub_eq_zero.mp (pow_eq_zero_iff (two_ne_zero) |>.mp (by linarith))
  · rintro ⟨h1, h2, h3, h4, h5, h6, h7⟩
    rw [h1, h2, h3, h4, h5, h6, h7]; ring

theorem getCentroid_map_some (V : List AudioFeatures) :
    getCentroid (V.map some) = .ok
      { Acousticness := (V.map (·.Acousticness)).sum / (V.length : ℚ)
        Danceability := (V.map (·.Danceability)).sum / (V.length : ℚ)
        Energy := (V.map (·.Energy)).sum / (V.length : ℚ)
        Instrumentalness := (V.map (·.Instrumentalness)).sum / (V.length : ℚ)
        Liveness := (V.map (·.Liveness)).sum / (V.length : ℚ)
        Loudness := 0
        Speechiness := (V.map (·.Speechiness)).sum / (V.length : ℚ)
        Valence := (V.map (·.Valence)).sum / (V.length : ℚ) } := by
  rw [getCentroid, List.length_map, getCentroidLoop_map_some]
  simp

/-! ## Claims about the aggregator -/

/-- C1: for a non-empty list `V` of vectors `getCentroid` returns a vector whose
seven aggregated dimensions are each `(1/n)` times the sum of that dimension
over `V`, with `n` the length of `V`; its loudness is zero, and the result is
the same whatever the loudness values of the inputs are. -/
theorem getCentroid_is_mean (V : List AudioFeatures) (hV : V ≠ []) :
    ∃ c : AudioFeatures, getCentroid (V.map some) = .ok c ∧
      c.Acousticness = 1 / (V.length : ℚ) * (V.map (·.Acousticness)).sum ∧
      c.Danceability = 1 / (V.length : ℚ) * (V.map (·.Danceability)).sum ∧
      c.Energy = 1 / (V.length : ℚ) * (V.map (·.Energy)).sum ∧
      c.Instrumentalness = 1 / (V.length : ℚ) * (V.map (·.Instrumentalness)).sum ∧
      c.Liveness = 1 / (V.length : ℚ) * (V.map (·.Liveness)).sum ∧
      c.Speechiness = 1 / (V.length : ℚ) * (V.map (·.Speechiness)).sum ∧
      c.Valence = 1 / (V.length : ℚ) * (V.map (·.Valence)).sum ∧
      c.Loudness = 0 ∧
      ∀ loud : AudioFeatures → ℚ,
        getCentroid ((V.map fun v => { v with Loudness := loud v }).map some) = .ok c := by
  have _ := hV
  refine ⟨_, getCentroid_map_some V, ?_, ?_, ?_, ?_, ?_, ?_, ?_, rfl, ?_⟩
  all_goals first
    | (simp only []; ring)
    | (intro loud
       rw [getCentroid_map_some]
       simp [List.map_map, Function.comp_def])

/-- A run of C1 on the two vectors with acousticness 1/5 and 4/5. -/
theorem getCentroid_is_mean_witness :
    ∃ c : AudioFeatures,
      getCentroid ([onlyAcousticness (1 / 5), onlyAcousticness (4 / 5)].map some) = .ok c ∧
      c.Acousticness = 1 / 2 ∧ c.Loudness = 0 := by
  obtain ⟨c, hc, ha, _, _, _, _, _, _, hl, _⟩ :=
    getCentroid_is_mean [onlyAcousticness (1 / 5), onlyAcousticness (4 / 5)] (by simp)
  refine ⟨c, hc, ?_, hl⟩
  rw [ha]; norm_num [onlyAcousticness]

/-- C2: for a non-empty list `V` of `n` vectors and any centroid `c`, `getMSE`
returns the sum over `V` of the seven squared per-dimension deviations from
`c`, divided by `n`; loudness of the inputs and of the centroid does not
contribute; for the two vectors with acousticness 0.2 and 0.8 (all else zero)
the centroid has acousticness 0.5 and the dispersion is 0.09. -/
theorem getMSE_is_mean_sq_deviation (V : List AudioFeatures) (c : AudioFeatures)
    (hV : V ≠ []) :
    getMSE (V.map some) c = .ok (some
      ((V.map fun v =>
          (c.Acousticness - v.Acousticness) ^ 2 + (c.Danceability - v.Danceability) ^ 2
          + (c.Energy - v.Energy) ^ 2 + (c.Instrumentalness - v.Instrumentalness) ^ 2
          + (c.Liveness - v.Liveness) ^ 2 + (c.Speechiness - v.Speechiness) ^ 2
          + (c.Valence - v.Valence) ^ 2).sum / (V.length : ℚ))) ∧
    (∀ (loud : AudioFeatures → ℚ) (l : ℚ),
      getMSE ((V.map fun v => { v with Loudness := loud v }).map some) { c with Loudness := l }
        = getMSE (V.map some) c) ∧
    getCentroid ([onlyAcousticness (2 / 10), onlyAcousticness (8 / 10)].map some)
      = .ok (onlyAcousticness (5 / 10)) ∧
    getMSE ([onlyAcousticness (2 / 10), onlyAcousticness (8 / 10)].map some)
      (onlyAcousticness (5 / 10)) = .ok (some (9 / 100)) := by
  have hn : (V.length : ℚ) ≠ 0 := by
    simpa using hV
  refine ⟨?_, ?_, ?_, ?_⟩
  · have hf : sqDeviation c = fun v =>
          (c.Acousticness - v.Acousticness) ^ 2 + (c.Danceability - v.Danceability) ^ 2
          + (c.Energy - v.Energy) ^ 2 + (c.Instrumentalness - v.Instrumentalness) ^ 2
          + (c.Liveness - v.Liveness) ^ 2 + (c.Speechiness - v.Speechiness) ^ 2
          + (c.Valence - v.Valence) ^ 2 := by
      funext v
      simp only [sqDeviation]; ring
    rw [getMSE_map_some, fdiv, if_neg hn, hf]
  · intro loud l
    have hl : ∀ v : AudioFeatures,
        sqDeviation { c with Loudness := l } { v with Loudness := loud v } = sqDeviation c v :=
      fun _ => rfl
    rw [getMSE_map_some, getMSE_map_some]
    simp only [List.map_map, Function.comp_def, hl, List.length_map]
  · rw [getCentroid_map_some]
    simp only [onlyAcousticness]
    norm_num
  · rw [getMSE_map_some]
    norm_num [onlyAcousticness, sqDeviation, fdiv]

/-- A run of C2 on one vector: the dispersion about a centroid at distance 1 in
acousticness is 1. -/
theorem getMSE_is_mean_sq_deviation_witness :
    getMSE ([onlyAcousticness 1].map some) (onlyAcousticness 0) = .ok (some 1) := by
  have h := (getMSE_is_mean_sq_deviation [onlyAcousticness 1] (onlyAcousticness 0)
    (by simp)).1
  rw [h]
  norm_num [onlyAcousticness]

/-- C3: for a non-empty `V`, the dispersion of `V` about its own centroid is
defined, and it is zero exactly when all vectors of `V` coincide on the seven
aggregated dimensions; it is zero for every single-element `V`. -/
theorem getMSE_centroid_zero_iff (V : List AudioFeatures) (hV : V ≠ []) :
    ∃ (c : AudioFeatures) (m : ℚ),
      getCentroid (V.map some) = .ok c ∧ getMSE (V.map some) c = .ok (some m) ∧
      (m = 0 ↔ ∀ a ∈ V, ∀ b ∈ V, agree7 a b) ∧
      (V.length = 1 → m = 0) := by
  have hn : (V.length : ℚ) ≠ 0 := by
    simpa using hV
  have key : ∀ c : AudioFeatures, getCentroid (V.map some) = .ok c →
      ((V.map (sqDeviation c)).sum / (V.length : ℚ) = 0 ↔ ∀ a ∈ V, ∀ b ∈ V, agree7 a b) := by
    intro c hc
    rw [div_eq_zero_iff, or_iff_left hn, sum_map_eq_zero_iff _ (sqDeviation_nonneg c)]
    simp only [sqDeviation_eq_zero_iff]
    rw [getCentroid_map_some] at hc
    injection hc with hc
    constructor
    · intro h a ha b hb
      have h1 := h a ha
      have h2 := h b hb
      unfold agree7 at *
      refine ⟨?_, ?_, ?_, ?_, ?_, ?_, ?_⟩
      · exact h1.1.symm.trans h2.1
      · exact h1.2.1.symm.trans h2.2.1
      · exact h1.2.2.1.symm.trans h2.2.2.1
      · exact h1.2.2.2.1.symm.trans h2.2.2.2.1
      · exact h1.2.2.2.2.1.symm.trans h2.2.2.2.2.1
      · exact h1.2.2.2.2.2.1.symm.trans h2.2.2.2.2.2.1
      · exact h1.2.2.2.2.2.2.symm.trans h2.2.2.2.2.2.2
    · intro h v hv
      subst hc
      have hd : ∀ (f : AudioFeatures → ℚ), (∀ u ∈ V, f u = f v) →
          (V.map f).sum / (V.length : ℚ) = f v := by
        intro f hf
        rw [sum_map_const f (f v) V hf]
        field_simp
      unfold agree7
      refine ⟨?_, ?_, ?_, ?_, ?_, ?_, ?_⟩
      · exact hd (·.Acousticness) fun u hu => (h u hu v hv).1
      · exact hd (·.Danceability) fun u hu => (h u hu v hv).2.1
      · exact hd (·.Energy) fun u hu => (h u hu v hv).2.2.1
      · exact hd (·.Instrumentalness) fun u hu => (h u hu v hv).2.2.2.1
      · exact hd (·.Liveness) fun u hu => (h u hu v hv).2.2.2.2.1
      · exact hd (·.Speechiness) fun u hu => (h u hu v hv).2.2.2.2.2.1
      · exact hd (·.Valence) fun u hu => (h u hu v hv).2.2.2.2.2.2
  obtain ⟨c, hc⟩ : ∃ c, getCentroid (V.map some) = .ok c := ⟨_, getCentroid_map_some V⟩
  refine ⟨c, (V.map (sqDeviation c)).sum / (V.length : ℚ), hc, ?_, key c hc, ?_⟩
  · rw [getMSE_map_some, fdiv, if_neg hn]
  · intro h1
    rw [key c hc]
    match V, h1 with
    | [v], _ =>
      intro a ha b hb
      simp only [List.mem_singleton] at ha hb
      subst ha; subst hb
      simp [agree7]

/-- A run of C3: two vectors that differ only in loudness have dispersion zero
about their centroid. -/
theorem getMSE_centroid_zero_iff_witness :
    ∃ (c : AudioFeatures) (m : ℚ),
      getCentroid ([({ Loudness := 1 } : AudioFeatures), { Loudness := 2 }].map some) = .ok c ∧
      getMSE ([({ Loudness := 1 } : AudioFeatures), { Loudness := 2 }].map some) c
        = .ok (some m) ∧ m = 0 := by
  obtain ⟨c, m, hc, hm, hiff, _⟩ :=
    getMSE_centroid_zero_iff [({ Loudness := 1 } : AudioFeatures), { Loudness := 2 }] (by simp)
  refine ⟨c, m, hc, hm, hiff.2 ?_⟩
  intro a ha b hb
  simp only [List.mem_cons, List.mem_singleton, List.not_mem_nil, or_false] at ha hb
  rcases ha with rfl | rfl <;> rcases hb with rfl | rfl <;> simp [agree7]

/-- C7: `getMSE` about a fixed centroid is the same for a list of vectors and
for every permutation of it. -/
theorem getMSE_perm (c : AudioFeatures) (V W : List AudioFeatures) (h : W.Perm V) :
    getMSE (V.map some) c = getMSE (W.map some) c := by
  rw [getMSE_map_some, getMSE_map_some, h.length_eq, (h.map (sqDeviation c)).sum_eq]

/-- A run of C7 on a two-element list and its reversal. -/
theorem getMSE_perm_witness :
    getMSE ([onlyAcousticness 1, onlyAcousticness 3].map some) (onlyAcousticness 2)
      = getMSE ([onlyAcousticness 3, onlyAcousticness 1].map some) (onlyAcousticness 2) :=
  getMSE_perm (onlyAcousticness 2) [onlyAcousticness 1, onlyAcousticness 3]
    [onlyAcousticness 3, onlyAcousticness 1] (List.Perm.swap _ _ _)

/-! ## Seed selection -/

theorem splitComma_ne_nil (s : List Char) : splitComma s ≠ [] := by
  cases s with
  | nil => simp [splitComma]
  | cons c cs =>
    unfold splitComma
    split
    · simp
    · split <;> simp

theorem splitComma_length (s : List Char) : (splitComma s).length = s.count ',' + 1 := by
  induction s with
  | nil => simp [splitComma]
  | cons c cs ih =>
    unfold splitComma
    by_cases h : c = ','
    · subst h; simp [ih]
    · rw [if_neg h]
      have hc : (c == ',') = false := by simpa using h
      rw [List.count_cons, hc]
      cases hs : splitComma cs with
      | nil => exact absurd hs (splitComma_ne_nil cs)
      | cons p ps => rw [hs] at ih; simpa using ih

theorem splitComma_intercalate (s : List Char) :
    List.intercalate [','] (splitComma s) = s := by
  induction s with
  | nil => simp [splitComma, List.intercalate]
  | cons c cs ih =>
    unfold splitComma
    cases hs : splitComma cs with
    | nil => exact absurd hs (splitComma_ne_nil cs)
    | cons p ps =>
      rw [hs] at ih
      by_cases h : c = ','
      · subst h
        simp only [if_true]
        simp only [List.intercalate] at ih ⊢
        simp [List.intersperse, ih]
      · rw [if_neg h]
        simp only [List.intercalate] at ih ⊢
        cases ps with
        | nil => simpa using ih
        | cons q qs => simpa [List.intersperse] using ih

theorem splitComma_no_comma (s : List Char) : ∀ p ∈ splitComma s, ',' ∉ p := by
  induction s with
  | nil => simp [splitComma]
  | cons c cs ih =>
    unfold splitComma
    cases hs : splitComma cs with
    | nil => exact absurd hs (splitComma_ne_nil cs)
    | cons p ps =>
      rw [hs] at ih
      by_cases h : c = ','
      · subst h
        simp only [if_true]
        intro q hq
        rcases List.mem_cons.mp hq with rfl | hq
        · simp
        · exact ih q hq
      · rw [if_neg h]
        intro q hq
        rcases List.mem_cons.mp hq with rfl | hq
        · have hp := ih p (by simp)
          simp only [List.mem_cons, not_or]
          exact ⟨fun e => h e.symm, hp⟩
        · exact ih q (by simp [hq])

theorem foldl_append_singleton {α : Type} (l acc : List α) :
    l.foldl (fun ids x => ids ++ [x]) acc = acc ++ l := by
  induction l generalizing acc with
  | nil => simp
  | cons x l ih => simp [ih]

theorem take_five_of_if {α : Type} (l : List α) :
    (if l.length > 5 then l.take 5 else l) = l.take 5 := by
  split
  · rfl
  · exact (List.take_of_length_le (by omega)).symm

theorem seedLoop_eq (items : List PlaylistItem) (idxs : List Nat) (acc : List ID)
    (h : ∀ idx ∈ idxs, ∃ track, items[idx]? = some ⟨some track⟩) :
    ∃ ids, seedLoop items idxs acc = .ok (acc ++ ids) ∧
      ids.map some = idxs.map (trackIDAt items) := by
  induction idxs generalizing acc with
  | nil => exact ⟨[], by simp [seedLoop], rfl⟩
  | cons idx idxs ih =>
    obtain ⟨track, ht⟩ := h idx (by simp)
    obtain ⟨ids, h1, h2⟩ := ih (acc ++ [track.ID]) (fun i hi => h i (by simp [hi]))
    refine ⟨track.ID :: ids, ?_, ?_⟩
    · simp only [seedLoop, ht, h1, List.append_assoc, List.singleton_append]
    · simp [h2, trackIDAt, ht]

/-- C4: for a non-empty `seeds` value `s`, whatever the playlist and the random
source, the seed list is the first five (at most) of the entries of `s`: the
entries are free of commas, joined by commas they give back `s`, and there are
one more of them than commas in `s`; `seeds=A,B,C` yields `[A, B, C]`. -/
theorem selectSeeds_explicit (items : List PlaylistItem) (randPerm : Nat → List Nat)
    (s : String) (hs : s ≠ "") :
    ∃ entries : List String,
      List.intercalate [','] (entries.map String.data) = s.data ∧
      (∀ e ∈ entries, ',' ∉ e.data) ∧
      entries.length = s.data.count ',' + 1 ∧
      selectSeeds items randPerm s = .ok (entries.take 5) ∧
      (entries.take 5).length = min entries.length 5 ∧
      selectSeeds items randPerm "A,B,C" = .ok ["A", "B", "C"] := by
  refine ⟨Split s, ?_, ?_, ?_, ?_, ?_, ?_⟩
  · simp only [Split, List.map_map]
    have hid : (String.data ∘ String.mk) = id := by funext l; rfl
    rw [hid, List.map_id, splitComma_intercalate]
  · intro e he
    simp only [Split, List.mem_map] at he
    obtain ⟨p, hp, rfl⟩ := he
    exact splitComma_no_comma _ p hp
  · simp [Split, splitComma_length]
  · simp only [selectSeeds, if_neg hs, take_five_of_if, foldl_append_singleton,
      List.nil_append]
  · rw [List.length_take, Nat.min_comm]
  · simp only [selectSeeds, take_five_of_if, foldl_append_singleton, List.nil_append]
    rw [if_neg (by decide)]
    congr 1

/-- A run of C4: six entries are cut to the first five, over a playlist whose
only track is none of them. -/
theorem selectSeeds_explicit_witness :
    selectSeeds [⟨some (bareTrack "Z")⟩] identityPerm "A,B,C,D,E,F"
      = .ok ["A", "B", "C", "D", "E"] := by
  obtain ⟨entries, hj, hc, hl, hsel, -, -⟩ :=
    selectSeeds_explicit [⟨some (bareTrack "Z")⟩] identityPerm "A,B,C,D,E,F" (by decide)
  rw [hsel]
  have h2 : selectSeeds [⟨some (bareTrack "Z")⟩] identityPerm "A,B,C,D,E,F"
      = .ok ["A", "B", "C", "D", "E"] := rfl
  rw [hsel] at h2
  exact h2

/-- C5: with no `seeds` value, a playlist of `n` items that all carry track data,
and any permutation of `0..n-1` from the random source, the seed list has
`min n 5` entries, its `j`-th entry is the track ID at the playlist index that
the permutation has at position `j`, the chosen indices are pairwise distinct,
every entry is the ID of a playlist track, and it is empty for `n = 0`. -/
theorem selectSeeds_random (items : List PlaylistItem) (randPerm : Nat → List Nat)
    (hperm : (randPerm items.length).Perm (List.range items.length))
    (htracks : ∀ item ∈ items, item.Track ≠ none) :
    ∃ ids : List ID,
      selectSeeds items randPerm "" = .ok ids ∧
      ids.length = min items.length 5 ∧
      ids.map some = ((randPerm items.length).take 5).map (trackIDAt items) ∧
      ((randPerm items.length).take 5).Nodup ∧
      (∀ id ∈ ids, ∃ item ∈ items, ∃ track, item.Track = some track ∧ track.ID = id) ∧
      (items.length = 0 → ids = []) := by
  have hin : ∀ idx ∈ (randPerm items.length).take 5,
      ∃ track, items[idx]? = some ⟨some track⟩ := by
    intro idx hidx
    have h1 : idx ∈ List.range items.length := hperm.subset (List.mem_of_mem_take hidx)
    have h2 : idx < items.length := List.mem_range.mp h1
    have h3 : items[idx]? = some (items.get ⟨idx, h2⟩) := by
      rw [List.getElem?_eq_getElem h2]; rfl
    have h4 := htracks (items.get ⟨idx, h2⟩) (List.get_mem _ _ _)
    cases ht : (items.get ⟨idx, h2⟩).Track with
    | none => exact absurd ht h4
    | some track =>
      refine ⟨track, ?_⟩
      rw [h3, ← ht]
  obtain ⟨ids, h1, h2⟩ := seedLoop_eq items ((randPerm items.length).take 5) [] hin
  have hlen : ids.length = min items.length 5 := by
    have h3 := congrArg List.length h2
    simp only [List.length_map, List.length_take, hperm.length_eq, List.length_range] at h3
    omega
  refine ⟨ids, ?_, hlen, h2, ?_, ?_, ?_⟩
  · simp only [selectSeeds, if_true, take_five_of_if]
    simpa using h1
  · exact ((List.take_sublist 5 _).nodup (hperm.nodup_iff.mpr (List.nodup_range _)))
  · intro id hid
    have h3 : some id ∈ ids.map some := List.mem_map_of_mem _ hid
    rw [h2, List.mem_map] at h3
    obtain ⟨idx, hidx, he⟩ := h3
    obtain ⟨track, ht⟩ := hin idx hidx
    refine ⟨⟨some track⟩, List.getElem?_mem ht, track, rfl, ?_⟩
    simpa [trackIDAt, ht] using he
  · intro h0
    rw [h0] at hlen
    exact List.length_eq_zero.mp (by simpa using hlen)

/-- A run of C5: a playlist of two tracks and the identity permutation. -/
theorem selectSeeds_random_witness :
    selectSeeds [⟨some (bareTrack "P")⟩, ⟨some (bareTrack "Q")⟩] identityPerm ""
      = .ok ["P", "Q"] := by
  obtain ⟨ids, hsel, -, hmap, -, -, -⟩ :=
    selectSeeds_random [⟨some (bareTrack "P")⟩, ⟨some (bareTrack "Q")⟩] identityPerm
      (List.Perm.refl _) (by simp)
  rw [hsel]
  have h2 : ids.map some = [some "P", some "Q"] := by
    rw [hmap]; decide
  match ids, h2 with
  | [a, b], h2 =>
    simp only [List.map_cons, List.map_nil, List.cons.injEq, Option.some.injEq, and_true] at h2
    rw [h2.1, h2.2]

/-! ## `strconv.ParseFloat` -/

theorem toLower_inv (c p : Char) (h : c.toLower = p) :
    c = p ∨ ∃ k, 65 ≤ k ∧ k ≤ 90 ∧ c = Char.ofNat k ∧ p = Char.ofNat (k + 32) := by
  unfold Char.toLower at h
  simp only at h
  split at h
  · rename_i hr
    exact Or.inr ⟨c.toNat, hr.1, hr.2, (Char.ofNat_toNat c).symm, h.symm⟩
  · exact Or.inl h

theorem toLower_eq_i (c : Char) (h : c.toLower = 'i') : c = 'i' ∨ c = 'I' := by
  rcases toLower_inv c _ h with h | ⟨k, h1, h2, hc, hp⟩
  · exact Or.inl h
  · right
    subst hc
    interval_cases k <;> first | rfl | (exact absurd hp (by decide))

theorem toLower_eq_n (c : Char) (h : c.toLower = 'n') : c = 'n' ∨ c = 'N' := by
  rcases toLower_inv c _ h with h | ⟨k, h1, h2, hc, hp⟩
  · exact Or.inl h
  · right
    subst hc
    interval_cases k <;> first | rfl | (exact absurd hp (by decide))

theorem toLower_eq_plus (c : Char) (h : c.toLower = '+') : c = '+' := by
  rcases toLower_inv c _ h with h | ⟨k, h1, h2, hc, hp⟩
  · exact h
  · interval_cases k <;> exact absurd hp (by decide)

theorem toLower_eq_minus (c : Char) (h : c.toLower = '-') : c = '-' := by
  rcases toLower_inv c _ h with h | ⟨k, h1, h2, hc, hp⟩
  · exact h
  · interval_cases k <;> exact absurd hp (by decide)

theorem commonPrefixLen_of_prefix (s pre : List Char)
    (h : s.map Char.toLower <+: pre) : commonPrefixLenIgnoreCase s pre = s.length := by
  induction s generalizing pre with
  | nil => cases pre <;> rfl
  | cons c s ih =>
    obtain ⟨t, ht⟩ := h
    cases pre with
    | nil => simp at ht
    | cons p pre =>
      simp only [List.map_cons, List.cons_append, List.cons.injEq] at ht
      simp only [commonPrefixLenIgnoreCase, ht.1, if_true, List.length_cons]
      rw [ih pre ⟨t, ht.2⟩]

theorem commonPrefixLen_take (s pre : List Char) :
    commonPrefixLenIgnoreCase s pre ≤ s.length ∧
    (s.take (commonPrefixLenIgnoreCase s pre)).map Char.toLower
      = pre.take (commonPrefixLenIgnoreCase s pre) := by
  induction s generalizing pre with
  | nil => cases pre <;> simp [commonPrefixLenIgnoreCase]
  | cons c s ih =>
    cases pre with
    | nil => simp [commonPrefixLenIgnoreCase]
    | cons p pre =>
      simp only [commonPrefixLenIgnoreCase]
      split
      · rename_i hc
        obtain ⟨h1, h2⟩ := ih pre
        refine ⟨by simp only [List.length_cons]; omega, ?_⟩
        simp only [List.take_succ_cons, List.map_cons, h2, hc]
      · simp

theorem specialInf_of_inf (body : List Char) (negative : Bool) (nsign : Nat)
    (h : body.map Char.toLower = "inf".data ∨ body.map Char.toLower = "infinity".data) :
    specialInf body negative nsign = some (F64.inf negative, nsign + body.length) := by
  rcases h with h | h
  · have hl : body.length = 3 := by
      have := congrArg List.length h
      simpa using this
    have hp : body.map Char.toLower <+: "infinity".data := ⟨"inity".data, by rw [h]; rfl⟩
    simp [specialInf, commonPrefixLen_of_prefix body _ hp, hl]
  · have hl : body.length = 8 := by
      have := congrArg List.length h
      simpa using this
    have hp : body.map Char.toLower <+: "infinity".data := ⟨[], by rw [h]; rfl⟩
    simp [specialInf, commonPrefixLen_of_prefix body _ hp, hl]

theorem specialInf_sound (body : List Char) (negative : Bool) (nsign : Nat) (v : F64)
    (h : specialInf body negative nsign = some (v, nsign + body.length)) :
    v = F64.inf negative ∧
    (body.map Char.toLower = "inf".data ∨ body.map Char.toLower = "infinity".data) := by
  obtain ⟨hle, htake⟩ := commonPrefixLen_take body "infinity".data
  unfold specialInf at h
  simp only at h
  generalize commonPrefixLenIgnoreCase body "infinity".data = k at h hle htake
  by_cases hk : 3 < k ∧ k < 8
  · rw [if_pos hk] at h
    simp only [true_or, if_true, Option.some.injEq, Prod.mk.injEq] at h
    omega
  · rw [if_neg hk] at h
    by_cases hk2 : k = 3 ∨ k = 8
    · rw [if_pos hk2] at h
      simp only [Option.some.injEq, Prod.mk.injEq] at h
      have hkl : k = body.length := by omega
      refine ⟨h.1.symm, ?_⟩
      rw [hkl, List.take_length] at htake
      rcases hk2 with h3 | h8
      · left; rw [htake, ← hkl, h3]; rfl
      · right; rw [htake, ← hkl, h8]; rfl
    · rw [if_neg hk2] at h
      cases h

theorem special_of_spelling (s : List Char) :
    ((s.map Char.toLower ∈ ["inf".data, "+inf".data, "infinity".data, "+infinity".data]) →
      special s = some (F64.inf false, s.length)) ∧
    ((s.map Char.toLower ∈ ["-inf".data, "-infinity".data]) →
      special s = some (F64.inf true, s.length)) ∧
    (s.map Char.toLower = "nan".data → special s = some (F64.nan, s.length)) := by
  cases s with
  | nil => refine ⟨?_, ?_, ?_⟩ <;> intro h <;> revert h <;> decide
  | cons c rest =>
    refine ⟨?_, ?_, ?_⟩
    · intro h
      simp only [List.mem_cons, List.mem_singleton, List.not_mem_nil, or_false] at h
      have hplus : ∀ body : List Char,
          (body.map Char.toLower = "inf".data ∨ body.map Char.toLower = "infinity".data) →
          c.toLower = '+' → rest = body → special (c :: rest) = some (F64.inf false, (c :: rest).length) := by
        intro body hb hc hr
        subst hr
        have hc2 := toLower_eq_plus c hc
        subst hc2
        simp only [special, if_true, specialInf_of_inf rest false 1 hb, List.length_cons]
        rw [Nat.add_comm]
      have hi : (c :: rest).map Char.toLower = "inf".data ∨
          (c :: rest).map Char.toLower = "infinity".data →
          special (c :: rest) = some (F64.inf false, (c :: rest).length) := by
        intro hb
        have hc : c.toLower = 'i' := by
          rcases hb with hb | hb <;>
            · simp only [List.map_cons] at hb
              exact (List.cons.inj hb).1
        have hcp : c ≠ '+' := by intro e; subst e; exact absurd hc (by decide)
        have hcm : c ≠ '-' := by intro e; subst e; exact absurd hc (by decide)
        have hci := toLower_eq_i c hc
        simp only [special, if_neg hcp, if_neg hcm, if_pos hci,
          specialInf_of_inf (c :: rest) false 0 hb, Nat.zero_add]
      rcases h with h | h | h | h
      · exact hi (Or.inl h)
      · simp only [List.map_cons] at h
        exact hplus rest (Or.inl (List.cons.inj h).2) (List.cons.inj h).1 rfl
      · exact hi (Or.inr h)
      · simp only [List.map_cons] at h
        exact hplus rest (Or.inr (List.cons.inj h).2) (List.cons.inj h).1 rfl
    · intro h
      simp only [List.mem_cons, List.mem_singleton, List.not_mem_nil, or_false] at h
      have hc : c.toLower = '-' := by
        rcases h with h | h <;>
          · simp only [List.map_cons] at h
            exact (List.cons.inj h).1
      have hb : rest.map Char.toLower = "inf".data ∨ rest.map Char.toLower = "infinity".data := by
        rcases h with h | h
        · simp only [List.map_cons] at h
          exact Or.inl (List.cons.inj h).2
        · simp only [List.map_cons] at h
          exact Or.inr (List.cons.inj h).2
      have hc2 := toLower_eq_minus c hc
      subst hc2
      have hne : ('-' : Char) ≠ '+' := by decide
      simp only [special, if_neg hne, if_true, specialInf_of_inf rest true 1 hb,
        List.length_cons]
      rw [Nat.add_comm]
    · intro h
      have hc : c.toLower = 'n' := by
        simp only [List.map_cons] at h
        exact (List.cons.inj h).1
      have hcp : c ≠ '+' := by intro e; subst e; exact absurd hc (by decide)
      have hcm : c ≠ '-' := by intro e; subst e; exact absurd hc (by decide)
      have hci : ¬ (c = 'i' ∨ c = 'I') := by
        rintro (e | e) <;> subst e <;> exact absurd hc (by decide)
      have hcn := toLower_eq_n c hc
      have hl : (c :: rest).length = 3 := by
        have := congrArg List.length h
        simpa using this
      have hp : (c :: rest).map Char.toLower <+: "nan".data := ⟨[], by rw [h]; rfl⟩
      have hcpl := commonPrefixLen_of_prefix (c :: rest) _ hp
      rw [hl] at hcpl
      simp only [special, if_neg hcp, if_neg hcm, if_neg hci, if_pos hcn, hcpl, if_true, hl]

theorem special_sound (s : List Char) (v : F64) (h : special s = some (v, s.length)) :
    (v = F64.inf false ∧
      s.map Char.toLower ∈ ["inf".data, "+inf".data, "infinity".data, "+infinity".data]) ∨
    (v = F64.inf true ∧ s.map Char.toLower ∈ ["-inf".data, "-infinity".data]) ∨
    (v = F64.nan ∧ s.map Char.toLower = "nan".data) := by
  cases s with
  | nil => simp [special] at h
  | cons c rest =>
    unfold special at h
    simp only at h
    by_cases hp : c = '+'
    · subst hp
      rw [if_pos rfl, List.length_cons, Nat.add_comm] at h
      obtain ⟨hv, hb⟩ := specialInf_sound rest false 1 v h
      left
      refine ⟨hv, ?_⟩
      simp only [List.map_cons, List.mem_cons, List.mem_singleton, List.not_mem_nil, or_false]
      rcases hb with hb | hb
      · right; left; rw [hb]; rfl
      · right; right; right; rw [hb]; rfl
    · rw [if_neg hp] at h
      by_cases hm : c = '-'
      · subst hm
        rw [if_pos rfl, List.length_cons, Nat.add_comm] at h
        obtain ⟨hv, hb⟩ := specialInf_sound rest true 1 v h
        right; left
        refine ⟨hv, ?_⟩
        simp only [List.map_cons, List.mem_cons, List.mem_singleton, List.not_mem_nil,
          or_false]
        rcases hb with hb | hb
        · left; rw [hb]; rfl
        · right; rw [hb]; rfl
      · rw [if_neg hm] at h
        by_cases hi : c = 'i' ∨ c = 'I'
        · rw [if_pos hi] at h
          have h0 : specialInf (c :: rest) false 0 = some (v, 0 + (c :: rest).length) := by
            rw [Nat.zero_add]; exact h
          obtain ⟨hv, hb⟩ := specialInf_sound (c :: rest) false 0 v h0
          left
          refine ⟨hv, ?_⟩
          simp only [List.mem_cons, List.mem_singleton, List.not_mem_nil, or_false]
          rcases hb with hb | hb
          · left; exact hb
          · right; right; left; exact hb
        · rw [if_neg hi] at h
          by_cases hn : c = 'n' ∨ c = 'N'
          · rw [if_pos hn] at h
            obtain ⟨-, htake⟩ := commonPrefixLen_take (c :: rest) "nan".data
            by_cases h3 : commonPrefixLenIgnoreCase (c :: rest) "nan".data = 3
            · rw [if_pos h3] at h
              simp only [Option.some.injEq, Prod.mk.injEq] at h
              right; right
              refine ⟨h.1.symm, ?_⟩
              rw [h3] at htake
              have hl : List.take 3 (c :: rest) = c :: rest := by
                rw [h.2, List.take_length]
              rw [hl] at htake
              rw [htake]; rfl
            · rw [if_neg h3] at h
              cases h
          · rw [if_neg hn] at h
            cases h

theorem ParseFloat_eq_some_iff (atof : String → Option ℚ) (s : String) (v : F64) :
    ParseFloat atof s = some v ↔
      special s.data = some (v, s.data.length) ∨
      (special s.data = none ∧ s.data ≠ [] ∧ ∃ x, atof s = some x ∧ v = F64.finite x) := by
  unfold ParseFloat
  cases hsp : special s.data with
  | none =>
    simp only [reduceCtorEq, false_or, true_and]
    by_cases he : s.data = []
    · simp [he]
    · rw [if_neg he]
      cases atof s with
      | none => simp
      | some x =>
        simp only [Option.map_some', Option.some.injEq, ne_eq, he, not_false_eq_true,
          true_and]
        constructor
        · intro h; exact ⟨x, rfl, h.symm⟩
        · rintro ⟨y, hy, hv⟩; rw [hv, hy]
  | some r =>
    obtain ⟨w, n⟩ := r
    simp only [Option.some.injEq, Prod.mk.injEq, reduceCtorEq, false_and, or_false]
    by_cases hn : n = s.data.length
    · simp [hn]
    · simp only [if_neg hn, reduceCtorEq, false_iff, not_and]
      intro _; exact hn

theorem ParseFloat_empty (atof : String → Option ℚ) : ParseFloat atof "" = none := by
  simp [ParseFloat, special]

theorem ParseFloat_posInf_iff (atof : String → Option ℚ) (s : String) :
    ParseFloat atof s = some (F64.inf false) ↔
      lowerCase s ∈ ["inf".data, "+inf".data, "infinity".data, "+infinity".data] := by
  rw [ParseFloat_eq_some_iff]
  constructor
  · rintro (h | ⟨-, -, x, -, hx⟩)
    · rcases special_sound _ _ h with ⟨-, h⟩ | ⟨h, -⟩ | ⟨h, -⟩
      · exact h
      · cases h
      · cases h
    · cases hx
  · intro h
    exact Or.inl ((special_of_spelling s.data).1 h)

theorem ParseFloat_negInf_iff (atof : String → Option ℚ) (s : String) :
    ParseFloat atof s = some (F64.inf true) ↔
      lowerCase s ∈ ["-inf".data, "-infinity".data] := by
  rw [ParseFloat_eq_some_iff]
  constructor
  · rintro (h | ⟨-, -, x, -, hx⟩)
    · rcases special_sound _ _ h with ⟨h, -⟩ | ⟨-, h⟩ | ⟨h, -⟩
      · cases h
      · exact h
      · cases h
    · cases hx
  · intro h
    exact Or.inl ((special_of_spelling s.data).2.1 h)

theorem ParseFloat_nan_iff (atof : String → Option ℚ) (s : String) :
    ParseFloat atof s = some F64.nan ↔ lowerCase s = "nan".data := by
  rw [ParseFloat_eq_some_iff]
  constructor
  · rintro (h | ⟨-, -, x, -, hx⟩)
    · rcases special_sound _ _ h with ⟨h, -⟩ | ⟨h, -⟩ | ⟨-, h⟩
      · cases h
      · cases h
      · exact h
    · cases hx
  · intro h
    exact Or.inl ((special_of_spelling s.data).2.2 h)

theorem ParseFloat_finite_iff (atof : String → Option ℚ) (s : String) (x : ℚ) :
    ParseFloat atof s = some (F64.finite x) ↔
      special s.data = none ∧ s ≠ "" ∧ atof s = some x := by
  have hne : s.data ≠ [] ↔ s ≠ "" := by
    constructor
    · intro h e; subst e; exact h rfl
    · intro h e; exact h (String.ext e)
  rw [ParseFloat_eq_some_iff]
  constructor
  · rintro (h | ⟨h1, h2, y, hy, hxy⟩)
    · rcases special_sound _ _ h with ⟨h, -⟩ | ⟨h, -⟩ | ⟨h, -⟩ <;> cases h
    · cases hxy
      exact ⟨h1, hne.mp h2, hy⟩
  · rintro ⟨h1, h2, h3⟩
    exact Or.inr ⟨h1, hne.mpr h2, x, h3, rfl⟩

theorem Get_of_absent (query : Values) (key : String) (h : ∀ kv ∈ query, kv.1 ≠ key) :
    query.Get key = "" := by
  unfold Values.Get
  have hf : query.find? (fun kv => kv.1 == key) = none := by
    rw [List.find?_eq_none]
    intro kv hkv
    simpa using h kv hkv
  rw [hf]

/-! ## Target attributes -/

theorem setIfParsed_keeps (atof : String → Option ℚ) (query : Values) (key : String)
    (proj : TrackAttributes → Option F64)
    (setTarget : TrackAttributes → F64 → TrackAttributes) (ta : TrackAttributes)
    (hset : ∀ ta v, proj (setTarget ta v) = proj ta) :
    proj (setIfParsed atof query key setTarget ta) = proj ta := by
  unfold setIfParsed
  split
  · exact hset _ _
  · rfl

theorem setIfParsed_sets (atof : String → Option ℚ) (query : Values) (key : String)
    (proj : TrackAttributes → Option F64)
    (setTarget : TrackAttributes → F64 → TrackAttributes) (ta : TrackAttributes)
    (hset : ∀ ta v, proj (setTarget ta v) = some v)
    (hta : proj ta = none) :
    proj (setIfParsed atof query key setTarget ta) = ParseFloat atof (query.Get key) := by
  unfold setIfParsed
  split
  · rename_i v hv
    rw [hset, hv]
  · rename_i hv
    rw [hta, hv]

theorem getTargetAttributes_acousticness (atof : String → Option ℚ) (query : Values) :
    (getTargetAttributes atof query).TargetAcousticness
      = ParseFloat atof (query.Get "acousticness") := by
  unfold getTargetAttributes
  have hk := setIfParsed_keeps atof query
  have hs := setIfParsed_sets atof query
  rw [hk _ TrackAttributes.TargetAcousticness, hk _ TrackAttributes.TargetAcousticness, hk _ TrackAttributes.TargetAcousticness, hk _ TrackAttributes.TargetAcousticness, hk _ TrackAttributes.TargetAcousticness, hk _ TrackAttributes.TargetAcousticness, hs _ TrackAttributes.TargetAcousticness]
  any_goals (intros; rfl)

theorem getTargetAttributes_danceability (atof : String → Option ℚ) (query : Values) :
    (getTargetAttributes atof query).TargetDanceability
      = ParseFloat atof (query.Get "danceability") := by
  unfold getTargetAttributes
  have hk := setIfParsed_keeps atof query
  have hs := setIfParsed_sets atof query
  rw [hk _ TrackAttributes.TargetDanceability, hk _ TrackAttributes.TargetDanceability, hk _ TrackAttributes.TargetDanceability, hk _ TrackAttributes.TargetDanceability, hk _ TrackAttributes.TargetDanceability, hs _ TrackAttributes.TargetDanceability]
  any_goals (intros; rfl)
  rw [hk _ TrackAttributes.TargetDanceability]
  any_goals (intros; rfl)

theorem getTargetAttributes_energy (atof : String → Option ℚ) (query : Values) :
    (getTargetAttributes atof query).TargetEnergy
      = ParseFloat atof (query.Get "energy") := by
  unfold getTargetAttributes
  have hk := setIfParsed_keeps atof query
  have hs := setIfParsed_sets atof query
  rw [hk _ TrackAttributes.TargetEnergy, hk _ TrackAttributes.TargetEnergy, hk _ TrackAttributes.TargetEnergy, hk _ TrackAttributes.TargetEnergy, hs _ TrackAttributes.TargetEnergy]
  any_goals (intros; rfl)
  rw [hk _ TrackAttributes.TargetEnergy, hk _ TrackAttributes.TargetEnergy]
  any_goals (intros; rfl)

theorem getTargetAttributes_instrumentalness (atof : String → Option ℚ) (query : Values) :
    (getTargetAttributes atof query).TargetInstrumentalness
      = ParseFloat atof (query.Get "instrumentalness") := by
  unfold getTargetAttributes
  have hk := setIfParsed_keeps atof query
  have hs := setIfParsed_sets atof query
  rw [hk _ TrackAttributes.TargetInstrumentalness, hk _ TrackAttributes.TargetInstrumentalness, hk _ TrackAttributes.TargetInstrumentalness, hs _ TrackAttributes.TargetInstrumentalness]
  any_goals (intros; rfl)
  rw [hk _ TrackAttributes.TargetInstrumentalness, hk _ TrackAttributes.TargetInstrumentalness, hk _ TrackAttributes.TargetInstrumentalness]
  any_goals (intros; rfl)

theorem getTargetAttributes_liveness (atof : String → Option ℚ) (query : Values) :
    (getTargetAttributes atof query).TargetLiveness
      = ParseFloat atof (query.Get "liveness") := by
  unfold getTargetAttributes
  have hk := setIfParsed_keeps atof query
  have hs := setIfParsed_sets atof query
  rw [hk _ TrackAttributes.TargetLiveness, hk _ TrackAttributes.TargetLiveness, hs _ TrackAttributes.TargetLiveness]
  any_goals (intros; rfl)
  rw [hk _ TrackAttributes.TargetLiveness, hk _ TrackAttributes.TargetLiveness, hk _ TrackAttributes.TargetLiveness, hk _ TrackAttributes.TargetLiveness]
  any_goals (intros; rfl)

theorem getTargetAttributes_speechiness (atof : String → Option ℚ) (query : Values) :
    (getTargetAttributes atof query).TargetSpeechiness
      = ParseFloat atof (query.Get "speechiness") := by
  unfold getTargetAttributes
  have hk := setIfParsed_keeps atof query
  have hs := setIfParsed_sets atof query
  rw [hk _ TrackAttributes.TargetSpeechiness, hs _ TrackAttributes.TargetSpeechiness]
  any_goals (intros; rfl)
  rw [hk _ TrackAttributes.TargetSpeechiness, hk _ TrackAttributes.TargetSpeechiness, hk _ TrackAttributes.TargetSpeechiness, hk _ TrackAttributes.TargetSpeechiness, hk _ TrackAttributes.TargetSpeechiness]
  any_goals (intros; rfl)

theorem getTargetAttributes_valence (atof : String → Option ℚ) (query : Values) :
    (getTargetAttributes atof query).TargetValence
      = ParseFloat atof (query.Get "valence") := by
  unfold getTargetAttributes
  have hk := setIfParsed_keeps atof query
  have hs := setIfParsed_sets atof query
  rw [hs _ TrackAttributes.TargetValence]
  any_goals (intros; rfl)
  rw [hk _ TrackAttributes.TargetValence, hk _ TrackAttributes.TargetValence, hk _ TrackAttributes.TargetValence, hk _ TrackAttributes.TargetValence, hk _ TrackAttributes.TargetValence, hk _ TrackAttributes.TargetValence]
  any_goals (intros; rfl)

theorem targetOf_getTargetAttributes (atof : String → Option ℚ) (query : Values)
    (key : String) (hkey : key ∈ recognisedKeys) :
    targetOf (getTargetAttributes atof query) key = ParseFloat atof (query.Get key) := by
  simp only [recognisedKeys, List.mem_cons, List.mem_singleton, List.not_mem_nil,
    or_false] at hkey
  rcases hkey with rfl | rfl | rfl | rfl | rfl | rfl | rfl
  · exact getTargetAttributes_acousticness atof query
  · exact getTargetAttributes_danceability atof query
  · exact getTargetAttributes_energy atof query
  · exact getTargetAttributes_instrumentalness atof query
  · exact getTargetAttributes_liveness atof query
  · exact getTargetAttributes_speechiness atof query
  · exact getTargetAttributes_valence atof query

/-- C6, as the code has it: each of the seven targets is exactly the result of
`strconv.ParseFloat` on the first value of its own key: set to the parsed value
when the error is nil, unset otherwise.  A key that is absent from the query
leaves its target unset, and the outcome for a key is the same for any two
queries that give that key the same value.  `ParseFloat` returns a nil error
with +Inf exactly for the spellings `inf`, `+inf`, `infinity`, `+infinity`,
with -Inf exactly for `-inf`, `-infinity`, and with NaN exactly for `nan`, in
any letter case; never for the empty string; and with a finite value exactly
when the string is not empty, does not begin with one of those spellings and
the numeric grammar yields that value. -/
theorem getTargetAttributes_eq_ParseFloat (atof : String → Option ℚ) (query : Values) :
    (getTargetAttributes atof query).TargetAcousticness
      = ParseFloat atof (query.Get "acousticness") ∧
    (getTargetAttributes atof query).TargetDanceability
      = ParseFloat atof (query.Get "danceability") ∧
    (getTargetAttributes atof query).TargetEnergy
      = ParseFloat atof (query.Get "energy") ∧
    (getTargetAttributes atof query).TargetInstrumentalness
      = ParseFloat atof (query.Get "instrumentalness") ∧
    (getTargetAttributes atof query).TargetLiveness
      = ParseFloat atof (query.Get "liveness") ∧
    (getTargetAttributes atof query).TargetSpeechiness
      = ParseFloat atof (query.Get "speechiness") ∧
    (getTargetAttributes atof query).TargetValence
      = ParseFloat atof (query.Get "valence") ∧
    (∀ key ∈ recognisedKeys,
      targetOf (getTargetAttributes atof query) key = ParseFloat atof (query.Get key)) ∧
    (∀ key ∈ recognisedKeys, (∀ kv ∈ query, kv.1 ≠ key) →
      targetOf (getTargetAttributes atof query) key = none) ∧
    (∀ key ∈ recognisedKeys, ∀ query' : Values, query'.Get key = query.Get key →
      targetOf (getTargetAttributes atof query') key
        = targetOf (getTargetAttributes atof query) key) ∧
    ParseFloat atof "" = none ∧
    (∀ s : String, ParseFloat atof s = some (F64.inf false) ↔
      lowerCase s ∈ ["inf".data, "+inf".data, "infinity".data, "+infinity".data]) ∧
    (∀ s : String, ParseFloat atof s = some (F64.inf true) ↔
      lowerCase s ∈ ["-inf".data, "-infinity".data]) ∧
    (∀ s : String, ParseFloat atof s = some F64.nan ↔ lowerCase s = "nan".data) ∧
    (∀ (s : String) (x : ℚ), ParseFloat atof s = some (F64.finite x) ↔
      special s.data = none ∧ s ≠ "" ∧ atof s = some x) := by
  refine ⟨getTargetAttributes_acousticness atof query,
    getTargetAttributes_danceability atof query, getTargetAttributes_energy atof query,
    getTargetAttributes_instrumentalness atof query, getTargetAttributes_liveness atof query,
    getTargetAttributes_speechiness atof query, getTargetAttributes_valence atof query,
    targetOf_getTargetAttributes atof query, ?_, ?_, ParseFloat_empty atof,
    ParseFloat_posInf_iff atof, ParseFloat_negInf_iff atof, ParseFloat_nan_iff atof,
    ParseFloat_finite_iff atof⟩
  · intro key hkey habsent
    rw [targetOf_getTargetAttributes atof query key hkey, Get_of_absent query key habsent]
    exact ParseFloat_empty atof
  · intro key hkey query' hsame
    rw [targetOf_getTargetAttributes atof query key hkey,
      targetOf_getTargetAttributes atof query' key hkey, hsame]

/-- A run of C6 with the numeral `0.5`: `energy=0.5` sets the energy target to
1/2, `liveness=-inf` sets the liveness target to -Inf, the malformed
`valence=abc` and the absent `acousticness` leave their targets unset. -/
theorem getTargetAttributes_eq_ParseFloat_witness :
    (getTargetAttributes halfOnly
      [("energy", "0.5"), ("valence", "abc"), ("liveness", "-inf")]).TargetEnergy
      = some (F64.finite (1 / 2)) ∧
    (getTargetAttributes halfOnly
      [("energy", "0.5"), ("valence", "abc"), ("liveness", "-inf")]).TargetLiveness
      = some (F64.inf true) ∧
    (getTargetAttributes halfOnly
      [("energy", "0.5"), ("valence", "abc"), ("liveness", "-inf")]).TargetValence
      = none ∧
    targetOf (getTargetAttributes halfOnly
      [("energy", "0.5"), ("valence", "abc"), ("liveness", "-inf")]) "acousticness"
      = none := by
  obtain ⟨-, -, he, -, hl, -, hv, -, habsent, -, -, -, hneg, -, hfin⟩ :=
    getTargetAttributes_eq_ParseFloat halfOnly
      [("energy", "0.5"), ("valence", "abc"), ("liveness", "-inf")]
  refine ⟨?_, ?_, ?_, ?_⟩
  · rw [he]
    exact (hfin "0.5" (1 / 2)).mpr ⟨by decide, by decide, rfl⟩
  · rw [hl]
    exact (hneg "-inf").mpr (by decide)
  · rw [hv]
    have h : special "abc".data = none := by decide
    simp [Values.Get, ParseFloat, h, halfOnly]
  · exact habsent "acousticness" (by decide) (by decide)

/-- C6 fails as stated: `acousticness=Inf`, `acousticness=NaN` and
`valence=-Infinity` parse with a nil error, so the target is set although the
value is not a finite float. -/
theorem getTargetAttributes_sets_non_finite :
    (getTargetAttributes noNumber [("acousticness", "Inf")]).TargetAcousticness
      = some (F64.inf false) ∧
    (getTargetAttributes noNumber [("acousticness", "NaN")]).TargetAcousticness
      = some F64.nan ∧
    (getTargetAttributes noNumber [("valence", "-Infinity")]).TargetValence
      = some (F64.inf true) ∧
    (∀ x : ℚ, F64.inf false ≠ F64.finite x) ∧ (∀ x : ℚ, F64.nan ≠ F64.finite x) ∧
    (∀ x : ℚ, F64.inf true ≠ F64.finite x) := by
  refine ⟨?_, ?_, ?_, ?_, ?_, ?_⟩
  · rw [getTargetAttributes_acousticness noNumber _]
    exact (ParseFloat_posInf_iff noNumber "Inf").mpr (by decide)
  · rw [getTargetAttributes_acousticness noNumber _]
    exact (ParseFloat_nan_iff noNumber "NaN").mpr (by decide)
  · rw [getTargetAttributes_valence noNumber _]
    exact (ParseFloat_negInf_iff noNumber "-Infinity").mpr (by decide)
  · intro x h; cases h
  · intro x h; cases h
  · intro x h; cases h

/-! ## Handlers -/

theorem aggregateAndRespond_calls (calls : List CallRecord) (tracks : List Track)
    (feats : List (Option AudioFeatures)) :
    (aggregateAndRespond calls tracks feats).calls = calls := by
  unfold aggregateAndRespond
  split
  · rfl
  · split <;> rfl

theorem getMSE_eq_none_iff (feats : List (Option AudioFeatures)) (c : AudioFeatures)
    (m : Option ℚ) (h : getMSE feats c = .ok m) : m = none ↔ feats = [] := by
  unfold getMSE at h
  split at h
  · cases h
  · injection h with h
    subst h
    unfold fdiv
    split
    · rename_i h0
      simp only [true_iff]
      exact List.length_eq_zero.mp (by exact_mod_cast h0)
    · rename_i h0
      simp only [false_iff, reduceCtorEq]
      intro he
      exact h0 (by simp [he])

theorem getCentroidLoop_nil_elem (n : ℚ) (feats : List (Option AudioFeatures))
    (acc : AudioFeatures) (h : none ∈ feats) :
    getCentroidLoop n feats acc = .error .nilDereference := by
  induction feats generalizing acc with
  | nil => simp at h
  | cons f feats ih =>
    cases f with
    | none => rfl
    | some f =>
      simp only [List.mem_cons, reduceCtorEq, false_or] at h
      simp only [getCentroidLoop]
      exact ih _ h

theorem aggregateAndRespond_spec (calls : List CallRecord) (tracks : List Track)
    (feats : List (Option AudioFeatures)) :
    ((∀ V : List AudioFeatures, feats = V.map some → (aggregateAndRespond calls tracks feats).fault = none) ∧
    (none ∈ feats → (aggregateAndRespond calls tracks feats).fault = some .nilDereference ∧ (aggregateAndRespond calls tracks feats).w = {}) ∧
    ((aggregateAndRespond calls tracks feats).fault = none →
      ∃ (c : AudioFeatures) (m : Option ℚ),
        getCentroid feats = .ok c ∧ getMSE feats c = .ok m ∧
        (aggregateAndRespond calls tracks feats).w.header
          = [("Content-Type", "application/json"), ("Access-Control-Allow-Origin", "*")] ∧
        (aggregateAndRespond calls tracks feats).w.status = [200] ∧ (aggregateAndRespond calls tracks feats).w.written = [] ∧
        (aggregateAndRespond calls tracks feats).w.encodeCalls = [{ Tracks := tracks, Centroid := c, MSE := m }] ∧
        (m = none ↔ feats = []) ∧
        (m ≠ none → (aggregateAndRespond calls tracks feats).w.encoded = [{ Tracks := tracks, Centroid := c, MSE := m }]) ∧
        (m = none → (aggregateAndRespond calls tracks feats).w.encoded = [])) ∧
    (feats = [] →
      (aggregateAndRespond calls tracks feats).fault = none ∧
      (aggregateAndRespond calls tracks feats).w =
        { header := [("Content-Type", "application/json"),
             ("Access-Control-Allow-Origin", "*")],
          status := [200], written := [],
          encodeCalls := [{ Tracks := tracks, Centroid := {}, MSE := none }],
          encoded := [] })) := by
  refine ⟨?_, ?_, ?_, ?_⟩
  · intro V hV
    subst hV
    simp only [aggregateAndRespond, getCentroid_map_some, getMSE_map_some]
  · intro hn
    have hc : getCentroid feats = .error .nilDereference :=
      getCentroidLoop_nil_elem _ feats _ hn
    simp [aggregateAndRespond, hc]
  · intro h
    unfold aggregateAndRespond at h ⊢
    cases hc : getCentroid feats with
    | error f => simp [hc] at h
    | ok c =>
      cases hm : getMSE feats c with
      | error f => simp [hc, hm] at h
      | ok m =>
        refine ⟨c, m, rfl, hm, ?_, ?_, ?_, ?_, getMSE_eq_none_iff feats c m hm, ?_, ?_⟩
        · cases m <;> simp [hm, ResponseWriter.Encode, ResponseWriter.WriteHeader,
            ResponseWriter.HeaderAdd, ResponseWriter.HeaderSet]
        · cases m <;> simp [hm, ResponseWriter.Encode, ResponseWriter.WriteHeader,
            ResponseWriter.HeaderAdd, ResponseWriter.HeaderSet]
        · cases m <;> simp [hm, ResponseWriter.Encode, ResponseWriter.WriteHeader,
            ResponseWriter.HeaderAdd, ResponseWriter.HeaderSet]
        · cases m <;> simp [hm, ResponseWriter.Encode, ResponseWriter.WriteHeader,
            ResponseWriter.HeaderAdd, ResponseWriter.HeaderSet]
        · intro hne
          cases m with
          | none => exact absurd rfl hne
          | some q =>
            simp [hm, ResponseWriter.Encode, ResponseWriter.WriteHeader,
              ResponseWriter.HeaderAdd, ResponseWriter.HeaderSet]
        · intro he
          subst he
          simp [hm, ResponseWriter.Encode, ResponseWriter.WriteHeader,
            ResponseWriter.HeaderAdd, ResponseWriter.HeaderSet]
  · intro h0
    subst h0
    simp [aggregateAndRespond, getCentroid, getCentroidLoop, getMSE, getMSELoop, fdiv,
      ResponseWriter.Encode, ResponseWriter.WriteHeader, ResponseWriter.HeaderAdd,
      ResponseWriter.HeaderSet]

theorem getPlaylistFunc_items_error (sc : Client) (query : Values) (e : String)
    (he : sc.GetPlaylistItems (query.Get "id") = .error e) :
    getPlaylistFunc sc query =
      { w := { header := [], status := [], written := ["failed to get playlist"],
               encodeCalls := [], encoded := [] },
        calls := [⟨.GetPlaylistItems, true⟩],
        fault := none } := by
  simp [getPlaylistFunc, he, record, isFailure, failWith, ResponseWriter.WriteString]

theorem getPlaylistFunc_features_error (sc : Client) (query : Values)
    (items : List PlaylistItem) (e : String)
    (hi : sc.GetPlaylistItems (query.Get "id") = .ok items)
    (he : sc.GetAudioFeatures (collectTracks items ([], [])).1 = .error e) :
    getPlaylistFunc sc query =
      { w := { header := [], status := [], written := ["failed to get audio features"],
               encodeCalls := [], encoded := [] },
        calls := [⟨.GetPlaylistItems, false⟩, ⟨.GetAudioFeatures, true⟩],
        fault := none } := by
  simp [getPlaylistFunc, hi, he, record, isFailure, failWith, ResponseWriter.WriteString]

theorem getPlaylistFunc_eq_aggregate (sc : Client) (query : Values)
    (items : List PlaylistItem) (feats : List (Option AudioFeatures))
    (hi : sc.GetPlaylistItems (query.Get "id") = .ok items)
    (hf : sc.GetAudioFeatures (collectTracks items ([], [])).1 = .ok feats) :
    getPlaylistFunc sc query
      = aggregateAndRespond [⟨.GetPlaylistItems, false⟩, ⟨.GetAudioFeatures, false⟩]
          (collectTracks items ([], [])).2 feats := by
  simp [getPlaylistFunc, hi, hf, record, isFailure]

theorem getRecsFunc_items_error (sc : Client) (randPerm : Nat → List Nat)
    (atof : String → Option ℚ) (query : Values) (e : String)
    (he : sc.GetPlaylistItems (query.Get "id") = .error e) :
    getRecsFunc sc randPerm atof query =
      { w := { header := [], status := [], written := ["failed to get playlist"],
               encodeCalls := [], encoded := [] },
        calls := [⟨.GetPlaylistItems, true⟩],
        fault := none } := by
  simp [getRecsFunc, he, record, isFailure, foldl_append_singleton, failWith,
    ResponseWriter.WriteString]

theorem getRecsFunc_seeds_fault (sc : Client) (randPerm : Nat → List Nat)
    (atof : String → Option ℚ) (query : Values)
    (items : List PlaylistItem) (f : Fault)
    (hi : sc.GetPlaylistItems (query.Get "id") = .ok items)
    (hs : selectSeeds items randPerm (query.Get "seeds") = .error f) :
    getRecsFunc sc randPerm atof query =
      { w := {}, calls := [⟨.GetPlaylistItems, false⟩], fault := some f } := by
  simp [getRecsFunc, hi, hs, record, isFailure, foldl_append_singleton, failWith,
    ResponseWriter.WriteString]

theorem getRecsFunc_recommendations_error (sc : Client) (randPerm : Nat → List Nat)
    (atof : String → Option ℚ) (query : Values)
    (items : List PlaylistItem) (ids : List ID) (e : String)
    (hi : sc.GetPlaylistItems (query.Get "id") = .ok items)
    (hs : selectSeeds items randPerm (query.Get "seeds") = .ok ids)
    (he : sc.GetRecommendations ids (getTargetAttributes atof query) = .error e) :
    getRecsFunc sc randPerm atof query =
      { w := { header := [], status := [], written := ["failed to get recommendations"],
               encodeCalls := [], encoded := [] },
        calls := [⟨.GetPlaylistItems, false⟩, ⟨.GetRecommendations, true⟩],
        fault := none } := by
  simp [getRecsFunc, hi, hs, he, record, isFailure, foldl_append_singleton, failWith,
    ResponseWriter.WriteString]

theorem getRecsFunc_tracks_error (sc : Client) (randPerm : Nat → List Nat)
    (atof : String → Option ℚ) (query : Values)
    (items : List PlaylistItem) (ids recs : List ID) (e : String)
    (hi : sc.GetPlaylistItems (query.Get "id") = .ok items)
    (hs : selectSeeds items randPerm (query.Get "seeds") = .ok ids)
    (hr : sc.GetRecommendations ids (getTargetAttributes atof query) = .ok recs)
    (he : sc.GetTracks recs = .error e) :
    getRecsFunc sc randPerm atof query =
      { w := { header := [], status := [], written := ["failed to get tracks"],
               encodeCalls := [], encoded := [] },
        calls := [⟨.GetPlaylistItems, false⟩, ⟨.GetRecommendations, false⟩,
                ⟨.GetTracks, true⟩],
        fault := none } := by
  simp [getRecsFunc, hi, hs, hr, he, record, isFailure, foldl_append_singleton, failWith,
    ResponseWriter.WriteString]

theorem getRecsFunc_recTracks_fault (sc : Client) (randPerm : Nat → List Nat)
    (atof : String → Option ℚ) (query : Values)
    (items : List PlaylistItem) (ids recs : List ID) (recItems : List (Option FullTrack))
    (f : Fault)
    (hi : sc.GetPlaylistItems (query.Get "id") = .ok items)
    (hs : selectSeeds items randPerm (query.Get "seeds") = .ok ids)
    (hr : sc.GetRecommendations ids (getTargetAttributes atof query) = .ok recs)
    (ht : sc.GetTracks recs = .ok recItems)
    (hrt : recTracks recItems [] = .error f) :
    getRecsFunc sc randPerm atof query =
      { w := {},
        calls := [⟨.GetPlaylistItems, false⟩, ⟨.GetRecommendations, false⟩,
          ⟨.GetTracks, false⟩],
        fault := some f } := by
  simp [getRecsFunc, hi, hs, hr, ht, hrt, record, isFailure, foldl_append_singleton, failWith,
    ResponseWriter.WriteString]

theorem getRecsFunc_features_error (sc : Client) (randPerm : Nat → List Nat)
    (atof : String → Option ℚ) (query : Values)
    (items : List PlaylistItem) (ids recs : List ID) (recItems : List (Option FullTrack))
    (tracks : List Track) (e : String)
    (hi : sc.GetPlaylistItems (query.Get "id") = .ok items)
    (hs : selectSeeds items randPerm (query.Get "seeds") = .ok ids)
    (hr : sc.GetRecommendations ids (getTargetAttributes atof query) = .ok recs)
    (ht : sc.GetTracks recs = .ok recItems)
    (hrt : recTracks recItems [] = .ok tracks)
    (he : sc.GetAudioFeatures recs = .error e) :
    getRecsFunc sc randPerm atof query =
      { w := { header := [], status := [], written := ["failed to get audio features"],
               encodeCalls := [], encoded := [] },
        calls := [⟨.GetPlaylistItems, false⟩, ⟨.GetRecommendations, false⟩,
                ⟨.GetTracks, false⟩, ⟨.GetAudioFeatures, true⟩],
        fault := none } := by
  simp [getRecsFunc, hi, hs, hr, ht, hrt, he, record, isFailure, foldl_append_singleton, failWith,
    ResponseWriter.WriteString]

theorem getRecsFunc_eq_aggregate (sc : Client) (randPerm : Nat → List Nat)
    (atof : String → Option ℚ) (query : Values)
    (items : List PlaylistItem) (ids recs : List ID) (recItems : List (Option FullTrack))
    (tracks : List Track) (feats : List (Option AudioFeatures))
    (hi : sc.GetPlaylistItems (query.Get "id") = .ok items)
    (hs : selectSeeds items randPerm (query.Get "seeds") = .ok ids)
    (hr : sc.GetRecommendations ids (getTargetAttributes atof query) = .ok recs)
    (ht : sc.GetTracks recs = .ok recItems)
    (hrt : recTracks recItems [] = .ok tracks)
    (hf : sc.GetAudioFeatures recs = .ok feats) :
    getRecsFunc sc randPerm atof query
      = aggregateAndRespond [⟨.GetPlaylistItems, false⟩, ⟨.GetRecommendations, false⟩,
          ⟨.GetTracks, false⟩, ⟨.GetAudioFeatures, false⟩] tracks feats := by
  simp [getRecsFunc, hi, hs, hr, ht, hrt, hf, record, isFailure, foldl_append_singleton]

/-- C8: in both handlers, when a collaborator call returns an error, the handler
ends with exactly that step's fixed message written to the body and nothing
else done to the response (no header, no status code, nothing passed to the
JSON encoder), with the failed call as the last collaborator call and without
a panic; this holds for each of the two calls of the playlist handler and each
of the four calls of the recommendation handler.  In particular when
`GetPlaylistItems` fails the body is "failed to get playlist" and no header is
set.  Conversely every call that a run records as failed is its last call and
its message is the only thing written. -/
theorem handlers_stop_on_failure (sc : Client) (randPerm : Nat → List Nat)
    (atof : String → Option ℚ) (query : Values) :
    (∀ e, sc.GetPlaylistItems (query.Get "id") = .error e →
      getPlaylistFunc sc query =
        { w := { header := [], status := [], written := ["failed to get playlist"],
                 encodeCalls := [], encoded := [] },
          calls := [⟨.GetPlaylistItems, true⟩],
          fault := none }) ∧
    (∀ items e,
      sc.GetPlaylistItems (query.Get "id") = .ok items →
      sc.GetAudioFeatures (collectTracks items ([], [])).1 = .error e →
      getPlaylistFunc sc query =
        { w := { header := [], status := [], written := ["failed to get audio features"],
                 encodeCalls := [], encoded := [] },
          calls := [⟨.GetPlaylistItems, false⟩, ⟨.GetAudioFeatures, true⟩],
          fault := none }) ∧
    (∀ e, sc.GetPlaylistItems (query.Get "id") = .error e →
      getRecsFunc sc randPerm atof query =
        { w := { header := [], status := [], written := ["failed to get playlist"],
                 encodeCalls := [], encoded := [] },
          calls := [⟨.GetPlaylistItems, true⟩],
          fault := none }) ∧
    (∀ items ids e,
      sc.GetPlaylistItems (query.Get "id") = .ok items →
      selectSeeds items randPerm (query.Get "seeds") = .ok ids →
      sc.GetRecommendations ids (getTargetAttributes atof query) = .error e →
      getRecsFunc sc randPerm atof query =
        { w := { header := [], status := [], written := ["failed to get recommendations"],
                 encodeCalls := [], encoded := [] },
          calls := [⟨.GetPlaylistItems, false⟩, ⟨.GetRecommendations, true⟩],
          fault := none }) ∧
    (∀ items ids recs e,
      sc.GetPlaylistItems (query.Get "id") = .ok items →
      selectSeeds items randPerm (query.Get "seeds") = .ok ids →
      sc.GetRecommendations ids (getTargetAttributes atof query) = .ok recs →
      sc.GetTracks recs = .error e →
      getRecsFunc sc randPerm atof query =
        { w := { header := [], status := [], written := ["failed to get tracks"],
                 encodeCalls := [], encoded := [] },
          calls := [⟨.GetPlaylistItems, false⟩, ⟨.GetRecommendations, false⟩,
                  ⟨.GetTracks, true⟩],
          fault := none }) ∧
    (∀ items ids recs recItems tracks e,
      sc.GetPlaylistItems (query.Get "id") = .ok items →
      selectSeeds items randPerm (query.Get "seeds") = .ok ids →
      sc.GetRecommendations ids (getTargetAttributes atof query) = .ok recs →
      sc.GetTracks recs = .ok recItems →
      recTracks recItems [] = .ok tracks →
      sc.GetAudioFeatures recs = .error e →
      getRecsFunc sc randPerm atof query =
        { w := { header := [], status := [], written := ["failed to get audio features"],
                 encodeCalls := [], encoded := [] },
          calls := [⟨.GetPlaylistItems, false⟩, ⟨.GetRecommendations, false⟩,
                  ⟨.GetTracks, false⟩, ⟨.GetAudioFeatures, true⟩],
          fault := none }) ∧
    (∀ r ∈ (getPlaylistFunc sc query).calls, r.failed = true →
      (getPlaylistFunc sc query).w.written = [failureMessage r.call] ∧
      (getPlaylistFunc sc query).w.header = [] ∧
      (getPlaylistFunc sc query).w.status = [] ∧
      (getPlaylistFunc sc query).w.encodeCalls = [] ∧
      (getPlaylistFunc sc query).w.encoded = [] ∧
      (getPlaylistFunc sc query).calls.getLast? = some r ∧
      (getPlaylistFunc sc query).fault = none) ∧
    (∀ r ∈ (getRecsFunc sc randPerm atof query).calls, r.failed = true →
      (getRecsFunc sc randPerm atof query).w.written = [failureMessage r.call] ∧
      (getRecsFunc sc randPerm atof query).w.header = [] ∧
      (getRecsFunc sc randPerm atof query).w.status = [] ∧
      (getRecsFunc sc randPerm atof query).w.encodeCalls = [] ∧
      (getRecsFunc sc randPerm atof query).w.encoded = [] ∧
      (getRecsFunc sc randPerm atof query).calls.getLast? = some r ∧
      (getRecsFunc sc randPerm atof query).fault = none) := by
  refine ⟨getPlaylistFunc_items_error sc query,
    getPlaylistFunc_features_error sc query,
    getRecsFunc_items_error sc randPerm atof query,
    getRecsFunc_recommendations_error sc randPerm atof query,
    getRecsFunc_tracks_error sc randPerm atof query,
    getRecsFunc_features_error sc randPerm atof query, ?_, ?_⟩
  · cases hi : sc.GetPlaylistItems (query.Get "id") with
    | error e =>
      rw [getPlaylistFunc_items_error sc query e hi]
      intro r hr hf
      simp only [List.mem_singleton] at hr
      subst hr
      simp [failureMessage]
    | ok items =>
      cases hf : sc.GetAudioFeatures (collectTracks items ([], [])).1 with
      | error e =>
        rw [getPlaylistFunc_features_error sc query items e hi hf]
        intro r hr hfail
        simp only [List.mem_cons, List.mem_singleton, List.not_mem_nil, or_false] at hr
        rcases hr with rfl | rfl
        · cases hfail
        · simp [failureMessage]
      | ok feats =>
        rw [getPlaylistFunc_eq_aggregate sc query items feats hi hf]
        intro r hr hfail
        rw [aggregateAndRespond_calls] at hr
        simp only [List.mem_cons, List.mem_singleton, List.not_mem_nil, or_false] at hr
        rcases hr with rfl | rfl <;> cases hfail
  · cases hi : sc.GetPlaylistItems (query.Get "id") with
    | error e =>
      rw [getRecsFunc_items_error sc randPerm atof query e hi]
      intro r hr hf
      simp only [List.mem_singleton] at hr
      subst hr
      simp [failureMessage]
    | ok items =>
      cases hs : selectSeeds items randPerm (query.Get "seeds") with
      | error f =>
        rw [getRecsFunc_seeds_fault sc randPerm atof query items f hi hs]
        intro r hr hfail
        simp only [List.mem_singleton] at hr
        subst hr
        cases hfail
      | ok ids =>
        cases hr : sc.GetRecommendations ids (getTargetAttributes atof query) with
        | error e =>
          rw [getRecsFunc_recommendations_error sc randPerm atof query items ids e hi hs hr]
          intro r hmem hfail
          simp only [List.mem_cons, List.mem_singleton, List.not_mem_nil, or_false] at hmem
          rcases hmem with rfl | rfl
          · cases hfail
          · simp [failureMessage]
        | ok recs =>
          cases ht : sc.GetTracks recs with
          | error e =>
            rw [getRecsFunc_tracks_error sc randPerm atof query items ids recs e hi hs hr ht]
            intro r hmem hfail
            simp only [List.mem_cons, List.mem_singleton, List.not_mem_nil,
              or_false] at hmem
            rcases hmem with rfl | rfl | rfl
            · cases hfail
            · cases hfail
            · simp [failureMessage]
          | ok recItems =>
            cases hrt : recTracks recItems [] with
            | error f =>
              rw [getRecsFunc_recTracks_fault sc randPerm atof query items ids recs recItems f
                hi hs hr ht hrt]
              intro r hmem hfail
              simp only [List.mem_cons, List.mem_singleton, List.not_mem_nil,
                or_false] at hmem
              rcases hmem with rfl | rfl | rfl <;> cases hfail
            | ok tracks =>
              cases hf : sc.GetAudioFeatures recs with
              | error e =>
                rw [getRecsFunc_features_error sc randPerm atof query items ids recs recItems
                  tracks e hi hs hr ht hrt hf]
                intro r hmem hfail
                simp only [List.mem_cons, List.mem_singleton, List.not_mem_nil,
                  or_false] at hmem
                rcases hmem with rfl | rfl | rfl | rfl
                · cases hfail
                · cases hfail
                · cases hfail
                · simp [failureMessage]
              | ok feats =>
                rw [getRecsFunc_eq_aggregate sc randPerm atof query items ids recs recItems
                  tracks feats hi hs hr ht hrt hf]
                intro r hmem hfail
                rw [aggregateAndRespond_calls] at hmem
                simp only [List.mem_cons, List.mem_singleton, List.not_mem_nil,
                  or_false] at hmem
                rcases hmem with rfl | rfl | rfl | rfl <;> cases hfail

/-- A run of C8 on each failing step: the playlist lookup and the feature lookup
in the playlist handler, the recommendation request and the track lookup in the
recommendation handler. -/
theorem handlers_stop_on_failure_witness :
    getPlaylistFunc failingClient [("id", "X")] =
      { w := { header := [], status := [], written := ["failed to get playlist"],
               encodeCalls := [], encoded := [] },
        calls := [⟨.GetPlaylistItems, true⟩],
        fault := none } ∧
    getPlaylistFunc featuresFailingClient [("id", "X")] =
      { w := { header := [], status := [], written := ["failed to get audio features"],
               encodeCalls := [], encoded := [] },
        calls := [⟨.GetPlaylistItems, false⟩, ⟨.GetAudioFeatures, true⟩],
        fault := none } ∧
    getRecsFunc recommendationsFailingClient identityPerm noNumber [("id", "X")] =
      { w := { header := [], status := [], written := ["failed to get recommendations"],
               encodeCalls := [], encoded := [] },
        calls := [⟨.GetPlaylistItems, false⟩, ⟨.GetRecommendations, true⟩],
        fault := none } ∧
    getRecsFunc tracksFailingClient identityPerm noNumber [("id", "X"), ("seeds", "A,B")] =
      { w := { header := [], status := [], written := ["failed to get tracks"],
               encodeCalls := [], encoded := [] },
        calls := [⟨.GetPlaylistItems, false⟩, ⟨.GetRecommendations, false⟩,
              ⟨.GetTracks, true⟩],
        fault := none } ∧
    getRecsFunc featuresFailingClient identityPerm noNumber [("id", "X")] =
      { w := { header := [], status := [], written := ["failed to get audio features"],
               encodeCalls := [], encoded := [] },
        calls := [⟨.GetPlaylistItems, false⟩, ⟨.GetRecommendations, false⟩,
              ⟨.GetTracks, false⟩, ⟨.GetAudioFeatures, true⟩],
        fault := none } :=
  ⟨(handlers_stop_on_failure failingClient identityPerm noNumber [("id", "X")]).1
      "404 Not Found" rfl,
    (handlers_stop_on_failure featuresFailingClient identityPerm noNumber
      [("id", "X")]).2.1 [⟨some (bareTrack "P")⟩] "429 Too Many Requests" rfl rfl,
    (handlers_stop_on_failure recommendationsFailingClient identityPerm noNumber
      [("id", "X")]).2.2.2.1 [⟨some (bareTrack "P")⟩] ["P"] "401 Unauthorized" rfl rfl rfl,
    (handlers_stop_on_failure tracksFailingClient identityPerm noNumber
      [("id", "X"), ("seeds", "A,B")]).2.2.2.2.1 [⟨some (bareTrack "P")⟩] ["A", "B"] ["R"]
      "502 Bad Gateway" rfl rfl rfl rfl,
    (handlers_stop_on_failure featuresFailingClient identityPerm noNumber
      [("id", "X")]).2.2.2.2.2.1 [⟨some (bareTrack "P")⟩] ["P"] ["R"]
      [some (bareTrack "R")] [newTrack (bareTrack "R")] "429 Too Many Requests"
      rfl rfl rfl rfl rfl rfl⟩

/-- C9, as the code has it: neither handler checks the length of the feature
list.  When the collaborator calls succeed, the handler applies `getCentroid`
and `getMSE` to exactly the list `GetAudioFeatures` returned: a nil entry makes
it panic with nothing written; otherwise it sets the JSON and CORS headers and
status 200 and passes the centroid and the MSE to the JSON encoder.  The MSE is
the undefined quotient by `n = 0` exactly when the list is empty; for an empty
list the run ends without a panic, the encoder is handed the zero centroid with
the undefined MSE, refuses it, and the body stays empty; for a non-empty list
the JSON document is written. -/
theorem aggregator_gets_returned_features (sc : Client) (randPerm : Nat → List Nat)
    (atof : String → Option ℚ) (query : Values) :
    (∀ items feats,
      sc.GetPlaylistItems (query.Get "id") = .ok items →
      sc.GetAudioFeatures (collectTracks items ([], [])).1 = .ok feats →
      ((∀ V : List AudioFeatures, feats = V.map some → (getPlaylistFunc sc query).fault = none) ∧
      (none ∈ feats → (getPlaylistFunc sc query).fault = some .nilDereference ∧ (getPlaylistFunc sc query).w = {}) ∧
      ((getPlaylistFunc sc query).fault = none →
        ∃ (c : AudioFeatures) (m : Option ℚ),
          getCentroid feats = .ok c ∧ getMSE feats c = .ok m ∧
          (getPlaylistFunc sc query).w.header
            = [("Content-Type", "application/json"), ("Access-Control-Allow-Origin", "*")] ∧
          (getPlaylistFunc sc query).w.status = [200] ∧ (getPlaylistFunc sc query).w.written = [] ∧
          (getPlaylistFunc sc query).w.encodeCalls = [{ Tracks := (collectTracks items ([], [])).2, Centroid := c, MSE := m }] ∧
          (m = none ↔ feats = []) ∧
          (m ≠ none → (getPlaylistFunc sc query).w.encoded = [{ Tracks := (collectTracks items ([], [])).2, Centroid := c, MSE := m }]) ∧
          (m = none → (getPlaylistFunc sc query).w.encoded = [])) ∧
      (feats = [] →
        (getPlaylistFunc sc query).fault = none ∧
        (getPlaylistFunc sc query).w =
          { header := [("Content-Type", "application/json"),
               ("Access-Control-Allow-Origin", "*")],
            status := [200], written := [],
            encodeCalls := [{ Tracks := (collectTracks items ([], [])).2, Centroid := {}, MSE := none }],
            encoded := [] }))) ∧
    (∀ items ids recs recItems tracks feats,
      sc.GetPlaylistItems (query.Get "id") = .ok items →
      selectSeeds items randPerm (query.Get "seeds") = .ok ids →
      sc.GetRecommendations ids (getTargetAttributes atof query) = .ok recs →
      sc.GetTracks recs = .ok recItems →
      recTracks recItems [] = .ok tracks →
      sc.GetAudioFeatures recs = .ok feats →
      ((∀ V : List AudioFeatures, feats = V.map some → (getRecsFunc sc randPerm atof query).fault = none) ∧
      (none ∈ feats → (getRecsFunc sc randPerm atof query).fault = some .nilDereference ∧ (getRecsFunc sc randPerm atof query).w = {}) ∧
      ((getRecsFunc sc randPerm atof query).fault = none →
        ∃ (c : AudioFeatures) (m : Option ℚ),
          getCentroid feats = .ok c ∧ getMSE feats c = .ok m ∧
          (getRecsFunc sc randPerm atof query).w.header
            = [("Content-Type", "application/json"), ("Access-Control-Allow-Origin", "*")] ∧
          (getRecsFunc sc randPerm atof query).w.status = [200] ∧ (getRecsFunc sc randPerm atof query).w.written = [] ∧
          (getRecsFunc sc randPerm atof query).w.encodeCalls = [{ Tracks := tracks, Centroid := c, MSE := m }] ∧
          (m = none ↔ feats = []) ∧
          (m ≠ none → (getRecsFunc sc randPerm atof query).w.encoded = [{ Tracks := tracks, Centroid := c, MSE := m }]) ∧
          (m = none → (getRecsFunc sc randPerm atof query).w.encoded = [])) ∧
      (feats = [] →
        (getRecsFunc sc randPerm atof query).fault = none ∧
        (getRecsFunc sc randPerm atof query).w =
          { header := [("Content-Type", "application/json"),
               ("Access-Control-Allow-Origin", "*")],
            status := [200], written := [],
            encodeCalls := [{ Tracks := tracks, Centroid := {}, MSE := none }],
            encoded := [] }))) := by
  constructor
  · intro items feats hi hf
    rw [getPlaylistFunc_eq_aggregate sc query items feats hi hf]
    exact aggregateAndRespond_spec _ _ feats
  · intro items ids recs recItems tracks feats hi hs hr ht hrt hf
    rw [getRecsFunc_eq_aggregate sc randPerm atof query items ids recs recItems tracks feats
      hi hs hr ht hrt hf]
    exact aggregateAndRespond_spec _ _ feats

/-- A run of C9 in both handlers: the playlist handler on an empty playlist
whose feature lookup succeeds with no vectors (the encoder is handed the
undefined MSE and the body stays empty), and the recommendation handler on a
one-track playlist with one recommended track (the JSON document is written). -/
theorem aggregator_gets_returned_features_witness :
    ((getPlaylistFunc emptyClient [("id", "X")]).fault = none ∧
      (getPlaylistFunc emptyClient [("id", "X")]).w =
        { header := [("Content-Type", "application/json"),
            ("Access-Control-Allow-Origin", "*")],
          status := [200], written := [],
          encodeCalls := [{ Tracks := [], Centroid := {}, MSE := none }],
          encoded := [] }) ∧
    ∃ (c : AudioFeatures) (m : ℚ),
      getCentroid [some (onlyAcousticness (1 / 2))] = .ok c ∧
      getMSE [some (onlyAcousticness (1 / 2))] c = .ok (some m) ∧
      (getRecsFunc oneTrackClient identityPerm noNumber [("id", "X")]).w.encoded
        = [{ Tracks := [newTrack (bareTrack "R")], Centroid := c, MSE := some m }] := by
  refine ⟨((aggregator_gets_returned_features emptyClient identityPerm noNumber
    [("id", "X")]).1 [] [] rfl rfl).2.2.2 rfl, ?_⟩
  have h := (aggregator_gets_returned_features oneTrackClient identityPerm noNumber
    [("id", "X")]).2 [⟨some (bareTrack "P")⟩] ["P"] ["R"] [some (bareTrack "R")]
    [newTrack (bareTrack "R")] [some (onlyAcousticness (1 / 2))] rfl rfl rfl rfl rfl rfl
  obtain ⟨c, m, hc, hm, -, -, -, -, hiff, henc, -⟩ :=
    h.2.2.1 (h.1 [onlyAcousticness (1 / 2)] rfl)
  cases m with
  | none => exact absurd (hiff.mp rfl) (by simp)
  | some q => exact ⟨c, q, hc, hm, henc (by simp)⟩

/-- C9 fails as stated: on an empty playlist whose feature lookup succeeds with
no vectors, the playlist handler reaches the aggregator with the empty list,
where `getMSE` divides by `n = 0`, and hands the undefined MSE to the JSON
encoder after setting the headers and status 200. -/
theorem aggregator_reached_with_empty_list :
    getMSE [] {} = .ok none ∧
    getPlaylistFunc emptyClient [("id", "X")] =
      { w := { header := [("Content-Type", "application/json"),
                 ("Access-Control-Allow-Origin", "*")],
               status := [200], written := [],
               encodeCalls := [{ Tracks := [], Centroid := {}, MSE := none }],
               encoded := [] },
        calls := [⟨.GetPlaylistItems, false⟩, ⟨.GetAudioFeatures, false⟩],
        fault := none } := by
  refine ⟨?_, ?_⟩
  · simp [getMSE, getMSELoop, fdiv]
  · have h : getPlaylistFunc emptyClient [("id", "X")]
        = aggregateAndRespond [⟨.GetPlaylistItems, false⟩, ⟨.GetAudioFeatures, false⟩] [] [] :=
      rfl
    have hs := (aggregateAndRespond_spec
      [⟨.GetPlaylistItems, false⟩, ⟨.GetAudioFeatures, false⟩] [] []).2.2.2 rfl
    have hcalls := aggregateAndRespond_calls
      [⟨.GetPlaylistItems, false⟩, ⟨.GetAudioFeatures, false⟩] [] []
    rw [h]
    generalize aggregateAndRespond
      [⟨.GetPlaylistItems, false⟩, ⟨.GetAudioFeatures, false⟩] [] [] = run at hs hcalls
    obtain ⟨w, calls, fault⟩ := run
    simp only at hs hcalls
    rw [hs.1, hs.2, hcalls]

/-- C10 fails on the code: for a playlist whose only item has no embedded track
data, the random seed selection of the recommendation handler dereferences the
nil track and panics, after the playlist lookup and before any other call,
while the playlist handler skips the same item and completes. -/
theorem getRecsFunc_nil_track_panics :
    selectSeeds [⟨none⟩] identityPerm "" = .error .nilDereference ∧
    getRecsFunc nilTrackClient identityPerm noNumber [("id", "X")] =
      { w := {}, calls := [⟨.GetPlaylistItems, false⟩], fault := some .nilDereference } ∧
    collectTracks [⟨none⟩] ([], []) = ([], []) ∧
    (getPlaylistFunc nilTrackClient [("id", "X")]).fault = none ∧
    (getPlaylistFunc nilTrackClient [("id", "X")]).calls
      = [⟨.GetPlaylistItems, false⟩, ⟨.GetAudioFeatures, false⟩] := by
  have h : getPlaylistFunc nilTrackClient [("id", "X")]
      = aggregateAndRespond [⟨.GetPlaylistItems, false⟩, ⟨.GetAudioFeatures, false⟩] [] [] :=
    rfl
  refine ⟨rfl, rfl, rfl, ?_, ?_⟩
  · rw [h]
    exact ((aggregateAndRespond_spec _ _ []).2.2.2 rfl).1
  · rw [h, aggregateAndRespond_calls]

end Cs492Back
